import Mathlib

/-!
Verification of the session-stream line-normalization and rendering pipeline.

The development shallowly embeds the core of `src/main.go`: the JSON value
model and a JSON parser (modelling `encoding/json.Unmarshal`), the `LogEntry`
struct decoder, the extractors (`extractText`, `extractToolCalls`,
`extractToolResults`), the formatters (`formatNumber`, `formatCost`,
`formatTokenUsage`), the format normalizer (`normalizeEntry`) and the line
processor (`processLine`).

Modelling conventions:
- Go strings are modelled as Lean `String`; `len` and slicing in the source
  are byte-based, so the model uses UTF-8 byte length (`goLen`) and a
  byte-budget prefix (`goTake`).  `goTake` keeps whole characters: Go byte
  slicing can split a multi-byte rune, the model truncates at the last
  character boundary within the budget.  Claim theorems whose conclusions
  contain a truncated string therefore take the alignment of the byte
  budget with a character boundary as an explicit hypothesis; all concrete
  inputs used in theorems are ASCII, where the alignment always holds.
- JSON numbers are modelled exactly as decimal values `m * 10^e` (`Dec`).
  Go decodes JSON numbers into `float64`; where the float conversion is
  observable (the cost fields and `formatNumber`/`formatCost` rounding) the
  model converts the decimal to the nearest binary64 value (`Dy`,
  `ratToFloat`) with round-to-nearest, ties-to-even, exactly as
  `strconv.ParseFloat`.  Subnormals, overflow to infinity and negative zero
  are outside the model.
- Go map iteration order is randomized per range statement.  The model
  threads an explicit iteration-order choice (`MapOrd`) into the two places
  the source ranges over a decoded map (`extractToolCalls` and the
  `tool_call` branch).  A legitimate order maps every association list to a
  permutation of itself.
- The process-wide `verboseMode` flag and the local wall-clock offset are
  explicit parameters.
-/

namespace SessionStream

/-- Exact decimal number `m * 10 ^ e`, the value of a JSON number literal.
`lit` in `Json.num` records whether the literal was in plain integer form
(no fraction part and no exponent), which is what Go `encoding/json`
requires when decoding into an `int` field. -/
structure Dec where
  m : Int
  e : Int
  deriving Repr, DecidableEq

/-- Dyadic rational `n * 2 ^ (-s)`, the model of a `float64` value. -/
structure Dy where
  n : Int
  s : Int
  deriving Repr, DecidableEq

/-- JSON value, as produced by `encoding/json` for an `interface\x7b\x7d`
target: objects are association lists in source order (duplicate keys are
kept by the parser; lookups take the last occurrence, matching Go map
overwrite semantics). -/
inductive Json where
  | null
  | bool (b : Bool)
  | num (d : Dec) (lit : Bool)
  | str (s : String)
  | arr (elems : List Json)
  | obj (fields : List (String × Json))
  deriving Repr

/-! ## String helpers with Go semantics -/

/-- Byte length of a string, Go `len(s)`. -/
def goLen (s : String) : Nat := s.utf8ByteSize

/-- Prefix of `s` fitting in a budget of `n` bytes (Go `s[:n]`, except that a
multi-byte character straddling the boundary is dropped rather than split). -/
def goTakeAux (n : Nat) : List Char → List Char
  | [] => []
  | c :: rest =>
    if c.utf8Size ≤ n then c :: goTakeAux (n - c.utf8Size) rest else []

def goTake (s : String) (n : Nat) : String := String.mk (goTakeAux n s.data)

/-- Character class of `unicode.IsSpace`, used by `strings.TrimSpace`. -/
def isGoSpace (c : Char) : Bool :=
  c = ' ' ∨ c = '\t' ∨ c = '\n' ∨ c = '\x0b' ∨ c = '\x0c' ∨ c = '\r' ∨
  c = '\u0085' ∨ c = '\u00A0' ∨ c = '\u1680' ∨
  (0x2000 ≤ c.toNat ∧ c.toNat ≤ 0x200A) ∨
  c = '\u2028' ∨ c = '\u2029' ∨ c = '\u202F' ∨ c = '\u205F' ∨ c = '\u3000'

/-- Go `strings.TrimSpace`. -/
def goTrimSpace (s : String) : String :=
  String.mk (((s.data.dropWhile isGoSpace).reverse.dropWhile isGoSpace).reverse)

/-- Go `strings.Join(parts, sep)`. -/
def goJoin (sep : String) : List String → String
  | [] => ""
  | a :: rest => rest.foldl (fun acc x => acc ++ sep ++ x) a

/-- Count of occurrences of the newline character, Go
`strings.Count(s, "\n")`. -/
def countNewlines (s : String) : Nat := (s.data.filter (· = '\n')).length

/-- Go `strings.HasPrefix` (byte prefix; for valid UTF-8 needles this is
character-list prefix). -/
def goStartsWith (s p : String) : Bool := p.data.isPrefixOf s.data

/-- ASCII lower-casing, the case folding `encoding/json` applies when
matching object keys against struct tags. -/
def asciiLowerChar (c : Char) : Char :=
  if 'A' ≤ c ∧ c ≤ 'Z' then Char.ofNat (c.toNat + 32) else c

def asciiLower (s : String) : String := String.mk (s.data.map asciiLowerChar)

/-- Key matching of `encoding/json`: exact tag match, else ASCII
case-insensitive match. -/
def keyMatches (k tag : String) : Bool := k = tag ∨ asciiLower k = asciiLower tag

/-! ## ANSI color constants from the source -/

def cyan : String := "\x1b[36m"
def green : String := "\x1b[32m"
def yellow : String := "\x1b[33m"
def red : String := "\x1b[31m"
def dim : String := "\x1b[2m"
def bold : String := "\x1b[1m"
def ansiReset : String := "\x1b[0m"
def magenta : String := "\x1b[35m"
def blue : String := "\x1b[34m"


/-! ## Rounding and binary64 conversion -/

/-- Quotient of `a / b` (for `b > 0`) rounded to the nearest integer with
ties to even, the rounding used by `strconv` when formatting and parsing
floating-point values. -/
def tiesEvenDiv (a b : Int) : Int :=
  let q := a / b
  let r := a % b
  if 2 * r < b then q
  else if b < 2 * r then q + 1
  else if q % 2 = 0 then q else q + 1

/-- Bit length of a natural number (`0` has bit length `0`). -/
def natBitsAux : Nat → Nat → Nat
  | 0, _ => 0
  | fuel + 1, n => if n = 0 then 0 else natBitsAux fuel (n / 2) + 1

def natBits (n : Nat) : Nat := natBitsAux n n

/-- Nearest binary64 value of the rational `a / b` (`b > 0`), rounded to
nearest with ties to even: the significand is normalized to 53 bits.
Exponent-range effects of IEEE 754 (subnormals, overflow to infinity) are
outside the model; with them excluded this is the value produced by Go
`strconv.ParseFloat` and by `float64` division. -/
def ratToFloat (a : Int) (b : Nat) : Dy :=
  if a = 0 then ⟨0, 0⟩ else
  let A := a.natAbs
  let p0 : Int := 53 + natBits b - natBits A
  let num0 : Nat := if 0 ≤ p0 then A * 2 ^ p0.toNat else A
  let den0 : Nat := if 0 ≤ p0 then b else b * 2 ^ (-p0).toNat
  let p : Int := if 2 ^ 53 ≤ num0 / den0 then p0 - 1 else p0
  let num : Nat := if 0 ≤ p then A * 2 ^ p.toNat else A
  let den : Nat := if 0 ≤ p then b else b * 2 ^ (-p).toNat
  let sig : Int := tiesEvenDiv num den
  let sig2 : Int := if sig = 2 ^ 53 then 2 ^ 52 else sig
  let p2 : Int := if sig = 2 ^ 53 then p - 1 else p
  if 0 ≤ a then ⟨sig2, p2⟩ else ⟨-sig2, p2⟩

/-- Conversion of a decimal literal value to its binary64 model
(`strconv.ParseFloat` semantics, up to the exclusions noted on
`ratToFloat`). -/
def decToFloat (d : Dec) : Dy :=
  if 0 ≤ d.e then ratToFloat (d.m * 10 ^ d.e.toNat) 1
  else ratToFloat d.m (10 ^ (-d.e).toNat)

/-- Value of `w` scaled by `k` and rounded to the nearest integer with ties
to even (the digit rounding of `fmt` fixed-point formatting). -/
def dyTiesEvenScale (w : Dy) (k : Int) : Int :=
  if 0 ≤ w.s then tiesEvenDiv (k * w.n) (2 ^ w.s.toNat)
  else k * w.n * 2 ^ (-w.s).toNat

/-! ## Decimal (exact) helpers for the timestamp heuristic -/

/-- Comparison `value of d > c`, exact on the decimal literal. -/
def decGtInt (d : Dec) (c : Int) : Bool :=
  if 0 ≤ d.e then c < d.m * 10 ^ d.e.toNat
  else c * 10 ^ (-d.e).toNat < d.m

/-- Division by 1000, exact on the decimal (the source divides the `float64`
by 1000; the sub-ulp rounding of that division is outside the model). -/
def decDiv1000 (d : Dec) : Dec := ⟨d.m, d.e - 3⟩

/-- Truncation toward zero to an integer, Go `int64(t)` applied to a
`float64`. -/
def decTruncToInt (d : Dec) : Int :=
  if 0 ≤ d.e then d.m * 10 ^ d.e.toNat
  else
    let k : Int := 10 ^ (-d.e).toNat
    if 0 ≤ d.m then d.m / k else -((-d.m) / k)

/-! ## Display of numeric values (`fmt` verbs) -/

def zeros (n : Nat) : String := String.mk (List.replicate n '0')

def pad2 (n : Nat) : String := if n < 10 then "0" ++ toString n else toString n

/-- Stripping of trailing decimal zeros of a mantissa. -/
def decStripAux : Nat → Int → Int → Dec
  | 0, m, e => ⟨m, e⟩
  | fuel + 1, m, e => if m % 10 = 0 ∧ m ≠ 0 then decStripAux fuel (m / 10) (e + 1) else ⟨m, e⟩

def decStrip (d : Dec) : Dec := decStripAux d.m.natAbs d.m d.e

/-- Display of a JSON number with Go `fmt` verb `%v` (which prints a
`float64` via `strconv` in shortest `%g` form: fixed notation exactly when
the decimal exponent lies in `[-4, 6)`, exponent notation otherwise, the
`eprec = 6` rule of shortest `g` formatting).  The model prints the
normalized decimal literal value; for literals of at most 15 significant
digits the shortest round-tripping representation of the binary64 value
has the same digits (15-digit round-trip injectivity), so the rendering
matches Go.  -/
def goFormatNum (d : Dec) : String :=
  if d.m = 0 then "0" else
  let d2 := decStrip d
  let sign := if d2.m < 0 then "-" else ""
  let digits := toString d2.m.natAbs
  let nd : Int := digits.length
  let pexp : Int := d2.e + nd - 1
  if -4 ≤ pexp ∧ pexp < 6 then
    if 0 ≤ d2.e then sign ++ digits ++ zeros d2.e.toNat
    else
      let k := (-d2.e).toNat
      if k < digits.length then
        sign ++ String.mk (digits.data.take (digits.length - k)) ++ "." ++
          String.mk (digits.data.drop (digits.length - k))
      else sign ++ "0." ++ zeros (k - digits.length) ++ digits
  else
    let mant := String.mk (digits.data.take 1) ++
      (if digits.length ≤ 1 then "" else "." ++ String.mk (digits.data.drop 1))
    sign ++ mant ++ "e" ++ (if pexp < 0 then "-" else "+") ++ pad2 pexp.natAbs

/-! ## JSON parser (`encoding/json` value grammar) -/

def skipWs : List Char → List Char
  | c :: rest => if c = ' ' ∨ c = '\t' ∨ c = '\n' ∨ c = '\r' then skipWs rest else c :: rest
  | [] => []

def isJDigit (c : Char) : Bool := '0' ≤ c ∧ c ≤ '9'

def digitVal (c : Char) : Nat := c.toNat - '0'.toNat

def hexVal (c : Char) : Option Nat :=
  if '0' ≤ c ∧ c ≤ '9' then some (c.toNat - '0'.toNat)
  else if 'a' ≤ c ∧ c ≤ 'f' then some (c.toNat - 'a'.toNat + 10)
  else if 'A' ≤ c ∧ c ≤ 'F' then some (c.toNat - 'A'.toNat + 10)
  else none

/-- Read of a run of decimal digits, returning value, count and rest. -/
def pDigits : List Char → Nat → Nat → (Nat × Nat × List Char)
  | c :: rest, acc, cnt =>
    if isJDigit c then pDigits rest (acc * 10 + digitVal c) (cnt + 1) else (acc, cnt, c :: rest)
  | [], acc, cnt => (acc, cnt, [])

/-- Code point of a `\uXXXX` escape (exactly four hex digits). -/
def pHex4 : List Char → Option (Nat × List Char)
  | a :: b :: c :: d :: rest => do
    let va ← hexVal a
    let vb ← hexVal b
    let vc ← hexVal c
    let vd ← hexVal d
    pure (((va * 16 + vb) * 16 + vc) * 16 + vd, rest)
  | _ => none

def isHighSur (n : Nat) : Bool := 0xD800 ≤ n ∧ n < 0xDC00
def isLowSur (n : Nat) : Bool := 0xDC00 ≤ n ∧ n < 0xE000
def isSur (n : Nat) : Bool := 0xD800 ≤ n ∧ n < 0xE000

def charOfCode (n : Nat) : Char := Char.ofNat n

/-- Body of a JSON string after the opening quote, with `encoding/json`
escape handling: standard escapes, `\uXXXX` with UTF-16 surrogate pairs,
invalid surrogates replaced by U+FFFD, raw control characters rejected. -/
def pJStringAux : Nat → List Char → List Char → Option (String × List Char)
  | 0, _, _ => none
  | _ + 1, [], _ => none
  | fuel + 1, c :: rest, acc =>
    if c = '"' then some (String.mk acc.reverse, rest)
    else if c = '\\' then
      match rest with
      | [] => none
      | e :: rest2 =>
        if e = '"' then pJStringAux fuel rest2 ('"' :: acc)
        else if e = '\\' then pJStringAux fuel rest2 ('\\' :: acc)
        else if e = '/' then pJStringAux fuel rest2 ('/' :: acc)
        else if e = 'b' then pJStringAux fuel rest2 ('\x08' :: acc)
        else if e = 'f' then pJStringAux fuel rest2 ('\x0c' :: acc)
        else if e = 'n' then pJStringAux fuel rest2 ('\n' :: acc)
        else if e = 'r' then pJStringAux fuel rest2 ('\r' :: acc)
        else if e = 't' then pJStringAux fuel rest2 ('\t' :: acc)
        else if e = 'u' then
          match pHex4 rest2 with
          | none => none
          | some (code, rest3) =>
            if isSur code then
              match rest3 with
              | '\\' :: 'u' :: rest4 =>
                match pHex4 rest4 with
                | some (code2, rest5) =>
                  if isHighSur code ∧ isLowSur code2 then
                    pJStringAux fuel rest5
                      (charOfCode (0x10000 + (code - 0xD800) * 0x400 + (code2 - 0xDC00)) :: acc)
                  else pJStringAux fuel rest3 ('�' :: acc)
                | none => pJStringAux fuel rest3 ('�' :: acc)
              | _ => pJStringAux fuel rest3 ('�' :: acc)
            else pJStringAux fuel rest3 (charOfCode code :: acc)
        else none
    else if c.toNat < 0x20 then none
    else pJStringAux fuel rest (c :: acc)

def pJString (cs : List Char) : Option (String × List Char) :=
  pJStringAux (cs.length + 1) cs []

/-- JSON number literal: sign, integer part (no leading zeros), optional
fraction, optional exponent.  Returns the exact decimal value and whether
the literal was in plain integer form. -/
def pNumber (cs : List Char) : Option (Json × List Char) :=
  let (neg, cs1) := match cs with
    | '-' :: rest => (true, rest)
    | _ => (false, cs)
  match cs1 with
  | [] => none
  | c :: _ =>
    if ¬ isJDigit c then none
    else
      let intPart :=
        if c = '0' then some (0, cs1.tail)
        else
          let (v, cnt, rest) := pDigits cs1 0 0
          if cnt = 0 then none else some (v, rest)
      match intPart with
      | none => none
      | some (iv, cs2) =>
        let fracPart : Option (Nat × Nat × List Char) := match cs2 with
          | '.' :: rest =>
            let (fv, fcnt, rest2) := pDigits rest 0 0
            if fcnt = 0 then none else some (fv, fcnt, rest2)
          | _ => some (0, 0, cs2)
        match fracPart with
        | none => none
        | some (fv, fcnt, cs3) =>
          let expPart : Option (Option Int × List Char) := match cs3 with
            | e :: rest =>
              if e = 'e' ∨ e = 'E' then
                let (esign, rest2) : (Bool × List Char) := match rest with
                  | '-' :: r => (true, r)
                  | '+' :: r => (false, r)
                  | r => (false, r)
                let (ev, ecnt, rest3) := pDigits rest2 0 0
                if ecnt = 0 then none
                else some (some (if esign then -(ev : Int) else (ev : Int)), rest3)
              else some (none, cs3)
            | [] => some (none, cs3)
          match expPart with
          | none => none
          | some (expv, cs4) =>
            let mAbs : Nat := iv * 10 ^ fcnt + fv
            let m : Int := if neg then -(mAbs : Int) else (mAbs : Int)
            let e : Int := (expv.getD 0) - fcnt
            let lit : Bool := fcnt = 0 ∧ expv = none ∧ cs2 == cs3
            some (.num ⟨m, e⟩ lit, cs4)

mutual

/-- JSON value parser; `fuel` strictly decreases on every recursive call and
an initial fuel of the input length plus two suffices, since every level of
structure consumes at least one character. -/
def pValue : Nat → List Char → Option (Json × List Char)
  | 0, _ => none
  | fuel + 1, cs =>
    match skipWs cs with
    | 'n' :: 'u' :: 'l' :: 'l' :: rest => some (.null, rest)
    | 't' :: 'r' :: 'u' :: 'e' :: rest => some (.bool true, rest)
    | 'f' :: 'a' :: 'l' :: 's' :: 'e' :: rest => some (.bool false, rest)
    | '"' :: rest => (pJString rest).map (fun p => (.str p.1, p.2))
    | '\x7b' :: rest =>
      (match skipWs rest with
       | '\x7d' :: rest2 => some (.obj [], rest2)
       | other => (pMembers fuel other []).map (fun p => (.obj p.1.reverse, p.2)))
    | '[' :: rest =>
      (match skipWs rest with
       | ']' :: rest2 => some (.arr [], rest2)
       | other => (pElems fuel other []).map (fun p => (.arr p.1.reverse, p.2)))
    | cs2 => pNumber cs2

/-- Object members after the opening brace (at least one member). -/
def pMembers : Nat → List Char → List (String × Json) → Option (List (String × Json) × List Char)
  | 0, _, _ => none
  | fuel + 1, cs, acc =>
    match skipWs cs with
    | '"' :: rest =>
      match pJString rest with
      | none => none
      | some (k, rest2) =>
        match skipWs rest2 with
        | ':' :: rest3 =>
          match pValue fuel rest3 with
          | none => none
          | some (v, rest4) =>
            match skipWs rest4 with
            | ',' :: rest5 => pMembers fuel rest5 ((k, v) :: acc)
            | '\x7d' :: rest5 => some (((k, v) :: acc), rest5)
            | _ => none
        | _ => none
    | _ => none

/-- Array elements after the opening bracket (at least one element). -/
def pElems : Nat → List Char → List Json → Option (List Json × List Char)
  | 0, _, _ => none
  | fuel + 1, cs, acc =>
    match pValue fuel cs with
    | none => none
    | some (v, rest) =>
      match skipWs rest with
      | ',' :: rest2 => pElems fuel rest2 (v :: acc)
      | ']' :: rest2 => some ((v :: acc), rest2)
      | _ => none

end

/-- Parse of a complete JSON document: one value with only whitespace
around it (`json.Unmarshal` rejects trailing data). -/
def jsonParse (s : String) : Option Json :=
  match pValue (s.data.length + 2) s.data with
  | some (j, rest) => if skipWs rest = [] then some j else none
  | none => none


/-! ## Message structures (`main.go` struct declarations) -/

/-- Go `Cost` struct.  The fields hold `float64` values (binary64 models). -/
structure CostS where
  input : Dy := ⟨0, 0⟩
  output : Dy := ⟨0, 0⟩
  cacheRead : Dy := ⟨0, 0⟩
  cacheWrite : Dy := ⟨0, 0⟩
  total : Dy := ⟨0, 0⟩
  deriving Repr, DecidableEq

/-- Go `Usage` struct. -/
structure UsageS where
  input : Int := 0
  output : Int := 0
  cacheRead : Int := 0
  cacheWrite : Int := 0
  totalTokens : Int := 0
  cost : Option CostS := none
  deriving Repr, DecidableEq

/-- Go `Message` struct. -/
structure MessageS where
  role : String := ""
  content : Option Json := none
  usage : Option UsageS := none
  deriving Repr

/-- Go `LogEntry` struct: the union of the OpenClaw (nested-message) and
inber (flat-event) field sets.  `Option`-valued fields model Go `nil`
(absent interface, nil map, nil pointer). -/
structure LogEntry where
  message : MessageS := {}
  timestamp : Option Json := none
  role : String := ""
  content : Option Json := none
  ts : String := ""
  model : String := ""
  inTokens : Int := 0
  outTokens : Int := 0
  costUSD : Dy := ⟨0, 0⟩
  toolID : String := ""
  toolName : String := ""
  toolInput : Option (List (String × Json)) := none
  isError : Bool := false
  request : Option (List (String × Json)) := none
  deriving Repr

/-! ## Object helpers with Go map semantics -/

/-- Lookup of a key in a decoded object.  Duplicate keys overwrite in
`encoding/json`, so the last occurrence wins. -/
def objLookup (fs : List (String × Json)) (k : String) : Option Json :=
  fs.foldl (fun acc p => if p.1 = k then some p.2 else acc) none

/-- Entry set of a decoded object under Go map semantics: duplicate keys
keep the last value.  The resulting order is only a canonical enumeration;
wherever the source ranges over a map, an explicit iteration order is
applied on top of it. -/
def objEntries (fs : List (String × Json)) : List (String × Json) :=
  fs.foldl (fun acc p => (acc.filter (fun q => q.1 ≠ p.1)) ++ [p]) []

/-! ## `encoding/json` decoding into the structs

Unknown object keys are ignored; keys match struct tags exactly or ASCII
case-insensitively; a JSON `null` leaves a non-interface field unchanged and
sets interface, map and pointer fields to nil; any type mismatch makes the
whole `Unmarshal` fail (Go records the error and `processLine` discards the
entry).  Decoding an object into a map-typed field reuses an existing map,
keeping its entries, so a duplicated `tool_input` or `request` key merges
the objects (later values overwrite per key).  A number decodes into an
`int` field only when the literal is in plain integer form
(`strconv.ParseInt` on the literal text); int64 overflow is outside the
model. -/

def decodeCostField (c : CostS) (k : String) (v : Json) : Option CostS :=
  if keyMatches k "input" then
    match v with
    | .null => some c
    | .num d _ => some { c with input := decToFloat d }
    | _ => none
  else if keyMatches k "output" then
    match v with
    | .null => some c
    | .num d _ => some { c with output := decToFloat d }
    | _ => none
  else if keyMatches k "cacheRead" then
    match v with
    | .null => some c
    | .num d _ => some { c with cacheRead := decToFloat d }
    | _ => none
  else if keyMatches k "cacheWrite" then
    match v with
    | .null => some c
    | .num d _ => some { c with cacheWrite := decToFloat d }
    | _ => none
  else if keyMatches k "total" then
    match v with
    | .null => some c
    | .num d _ => some { c with total := decToFloat d }
    | _ => none
  else some c

def decodeCostFields (c : CostS) (fs : List (String × Json)) : Option CostS :=
  fs.foldlM (fun c p => decodeCostField c p.1 p.2) c

def decodeUsageField (u : UsageS) (k : String) (v : Json) : Option UsageS :=
  if keyMatches k "input" then
    match v with
    | .null => some u
    | .num d lit => if lit then some { u with input := d.m } else none
    | _ => none
  else if keyMatches k "output" then
    match v with
    | .null => some u
    | .num d lit => if lit then some { u with output := d.m } else none
    | _ => none
  else if keyMatches k "cacheRead" then
    match v with
    | .null => some u
    | .num d lit => if lit then some { u with cacheRead := d.m } else none
    | _ => none
  else if keyMatches k "cacheWrite" then
    match v with
    | .null => some u
    | .num d lit => if lit then some { u with cacheWrite := d.m } else none
    | _ => none
  else if keyMatches k "totalTokens" then
    match v with
    | .null => some u
    | .num d lit => if lit then some { u with totalTokens := d.m } else none
    | _ => none
  else if keyMatches k "cost" then
    match v with
    | .null => some { u with cost := none }
    | .obj fs => (decodeCostFields (u.cost.getD {}) fs).map (fun c => { u with cost := some c })
    | _ => none
  else some u

def decodeUsageFields (u : UsageS) (fs : List (String × Json)) : Option UsageS :=
  fs.foldlM (fun u p => decodeUsageField u p.1 p.2) u

def decodeMessageField (msg : MessageS) (k : String) (v : Json) : Option MessageS :=
  if keyMatches k "role" then
    match v with
    | .null => some msg
    | .str s => some { msg with role := s }
    | _ => none
  else if keyMatches k "content" then
    match v with
    | .null => some { msg with content := none }
    | _ => some { msg with content := some v }
  else if keyMatches k "usage" then
    match v with
    | .null => some { msg with usage := none }
    | .obj fs => (decodeUsageFields (msg.usage.getD {}) fs).map (fun u => { msg with usage := some u })
    | _ => none
  else some msg

def decodeMessageFields (msg : MessageS) (fs : List (String × Json)) : Option MessageS :=
  fs.foldlM (fun m p => decodeMessageField m p.1 p.2) msg

def decodeEntryField (e : LogEntry) (k : String) (v : Json) : Option LogEntry :=
  if keyMatches k "message" then
    match v with
    | .null => some e
    | .obj fs => (decodeMessageFields e.message fs).map (fun m => { e with message := m })
    | _ => none
  else if keyMatches k "timestamp" then
    match v with
    | .null => some { e with timestamp := none }
    | _ => some { e with timestamp := some v }
  else if keyMatches k "role" then
    match v with
    | .null => some e
    | .str s => some { e with role := s }
    | _ => none
  else if keyMatches k "content" then
    match v with
    | .null => some { e with content := none }
    | _ => some { e with content := some v }
  else if keyMatches k "ts" then
    match v with
    | .null => some e
    | .str s => some { e with ts := s }
    | _ => none
  else if keyMatches k "model" then
    match v with
    | .null => some e
    | .str s => some { e with model := s }
    | _ => none
  else if keyMatches k "in_tokens" then
    match v with
    | .null => some e
    | .num d lit => if lit then some { e with inTokens := d.m } else none
    | _ => none
  else if keyMatches k "out_tokens" then
    match v with
    | .null => some e
    | .num d lit => if lit then some { e with outTokens := d.m } else none
    | _ => none
  else if keyMatches k "cost_usd" then
    match v with
    | .null => some e
    | .num d _ => some { e with costUSD := decToFloat d }
    | _ => none
  else if keyMatches k "tool_id" then
    match v with
    | .null => some e
    | .str s => some { e with toolID := s }
    | _ => none
  else if keyMatches k "tool_name" then
    match v with
    | .null => some e
    | .str s => some { e with toolName := s }
    | _ => none
  else if keyMatches k "tool_input" then
    match v with
    | .null => some { e with toolInput := none }
    | .obj fs => some { e with toolInput := some (objEntries (e.toolInput.getD [] ++ fs)) }
    | _ => none
  else if keyMatches k "is_error" then
    match v with
    | .null => some e
    | .bool b => some { e with isError := b }
    | _ => none
  else if keyMatches k "request" then
    match v with
    | .null => some { e with request := none }
    | .obj fs => some { e with request := some (objEntries (e.request.getD [] ++ fs)) }
    | _ => none
  else some e

/-- Go `json.Unmarshal` of a parsed value into `LogEntry`: a top-level
`null` is a no-op leaving the zero struct, a top-level object decodes field
by field, and any other top-level value is an error. -/
def decodeLogEntry (j : Json) : Option LogEntry :=
  match j with
  | .null => some {}
  | .obj fs => fs.foldlM (fun e p => decodeEntryField e p.1 p.2) {}
  | _ => none

/-- Line decoding as performed by `processLine` before rendering: trim,
reject empty lines, parse JSON, decode the struct. -/
def decodeLine (line : String) : Option LogEntry :=
  let l := goTrimSpace line
  if l = "" then none
  else
    match jsonParse l with
    | some j => decodeLogEntry j
    | none => none


/-! ## Value display (`fmt.Sprintf("%v", v)`) -/

/-- String sort by Go byte-lexicographic order (UTF-8 byte order coincides
with code-point order), used by `fmt` when printing maps. -/
def strLe (a b : List Char) : Bool :=
  match a, b with
  | [], _ => true
  | _ :: _, [] => false
  | x :: xs, y :: ys => if x = y then strLe xs ys else decide (x < y)

def insertSorted (p : String × String) : List (String × String) → List (String × String)
  | [] => [p]
  | q :: rest => if strLe p.1.data q.1.data then p :: q :: rest else q :: insertSorted p rest

def sortByKey (l : List (String × String)) : List (String × String) :=
  l.foldr insertSorted []

/-- Go `fmt.Sprintf("%v", v)` on a decoded JSON value: strings print raw,
numbers as `float64` shortest form, maps as `map[k1:v1 k2:v2]` with keys
sorted, slices as `[v1 v2]`, nil as `<nil>`.  `fuel` strictly decreases on
every recursive call; `goFormatValue` supplies a sufficient amount. -/
def goFormatValueF : Nat → Json → String
  | 0, _ => ""
  | _ + 1, .null => "<nil>"
  | _ + 1, .bool b => if b then "true" else "false"
  | _ + 1, .num d _ => goFormatNum d
  | _ + 1, .str s => s
  | fuel + 1, .arr xs => "[" ++ goJoin " " (xs.map (goFormatValueF fuel)) ++ "]"
  | fuel + 1, .obj fs =>
    let entries := (objEntries fs).map (fun p => (p.1, goFormatValueF fuel p.2))
    "map[" ++ goJoin " " ((sortByKey entries).map (fun p => p.1 ++ ":" ++ p.2)) ++ "]"

mutual

def jsonDepth : Json → Nat
  | .arr xs => jsonDepthL xs + 1
  | .obj fs => jsonDepthO fs + 1
  | _ => 1

def jsonDepthL : List Json → Nat
  | [] => 0
  | x :: rest => max (jsonDepth x) (jsonDepthL rest)

def jsonDepthO : List (String × Json) → Nat
  | [] => 0
  | p :: rest => max (jsonDepth p.2) (jsonDepthO rest)

end

def goFormatValue (j : Json) : String := goFormatValueF (jsonDepth j + 1) j

/-! ## Extractors -/

/-- Go `extractText`: a plain string passes through; a slice collects the
`text` field of each `type=="text"` block and each bare string element,
joined by newlines; any other non-nil value is `%v`-stringified; nil gives
the empty string. -/
def extractText (content : Option Json) : String :=
  match content with
  | some (.str s) => s
  | some (.arr blocks) =>
    goJoin "\n" (blocks.filterMap (fun b =>
      match b with
      | .obj bm =>
        match objLookup bm "type" with
        | some (.str t) =>
          if t = "text" then
            match objLookup bm "text" with
            | some (.str txt) => some txt
            | _ => none
          else none
        | _ => none
      | .str s => some s
      | _ => none))
  | some j => goFormatValue j
  | none => ""

/-- Iteration order chosen by the Go runtime for one `range` over a map,
modelled as a reordering function applied to the canonical entry list.  A
legitimate order maps every list to a permutation of itself
(`MapOrdValid`). -/
def MapOrd : Type := List (String × Json) → List (String × Json)

def MapOrdValid (ord : MapOrd) : Prop := ∀ l, (ord l).Perm l

/-- Argument summary for one key of a tool-call arguments map:
`k=v` with the value stringified and truncated to 80 bytes with a trailing
ellipsis (Go keeps 77 bytes and appends the marker). -/
def argSummary (p : String × Json) : String :=
  let vStr := goFormatValue p.2
  let vStr := if 80 < goLen vStr then goTake vStr 77 ++ "…" else vStr
  p.1 ++ "=" ++ vStr

/-- Name of a tool-call block, defaulting to a question mark. -/
def toolCallName (bm : List (String × Json)) : String :=
  match objLookup bm "name" with
  | some (.str n) => n
  | _ => "?"

/-- Argument summary of a tool-call block: a map renders `k=v` pairs in the
iteration order `ord` with per-value 80-byte truncation; any other present
value is stringified and hard-truncated to 150 bytes; an absent value is
empty. -/
def toolCallArgs (ord : MapOrd) (bm : List (String × Json)) : String :=
  match objLookup bm "arguments" with
  | some (.obj am) => goJoin ", " ((ord (objEntries am)).map argSummary)
  | some j =>
    let s := goFormatValue j
    if 150 < goLen s then goTake s 150 else s
  | none => ""

/-- One formatted line for a `type=="toolCall"` block, none otherwise. -/
def toolCallLine (ord : MapOrd) (b : Json) : Option String :=
  match b with
  | .obj bm =>
    match objLookup bm "type" with
    | some (.str t) =>
      if t = "toolCall" then
        some ("  " ++ magenta ++ "⚡ " ++ toolCallName bm ++ ansiReset ++ "(" ++ dim ++
          toolCallArgs ord bm ++ ansiReset ++ ")")
      else none
    | _ => none
  | _ => none

/-- Go `extractToolCalls`: one formatted line per `type=="toolCall"` block
of a slice content.  `ord` is the map iteration order used for the
arguments of each call. -/
def extractToolCalls (ord : MapOrd) (content : Option Json) : List String :=
  match content with
  | some (.arr blocks) => blocks.filterMap (toolCallLine ord)
  | _ => []

/-- Go `extractToolResults`: one formatted line per `type=="toolResult"`
block with non-blank resolved text; text prefers the `text` field, else
joins nested `text` fields of a `content` slice, else stringifies
`content`; truncated to 300 bytes (297 plus ellipsis). -/
def extractToolResults (content : Option Json) : List String :=
  match content with
  | some (.arr blocks) =>
    blocks.filterMap (fun b =>
      match b with
      | .obj bm =>
        match objLookup bm "type" with
        | some (.str t) =>
          if t = "toolResult" then
            let text := match objLookup bm "text" with
              | some (.str s) => s
              | _ =>
                match objLookup bm "content" with
                | some (.arr items) =>
                  goJoin " " (items.filterMap (fun it =>
                    match it with
                    | .obj im =>
                      match objLookup im "text" with
                      | some (.str s) => some s
                      | _ => none
                    | _ => none))
                | some j => goFormatValue j
                | none => ""
            let text := if 300 < goLen text then goTake text 297 ++ "…" else text
            if goTrimSpace text ≠ "" then
              some ("  " ++ dim ++ "→ " ++ text ++ ansiReset)
            else none
          else none
        | _ => none
      | _ => none)
  | _ => []

/-! ## Formatters -/

/-- Go `formatNumber`: token counts of at least 1000 print as thousands to
one decimal place with a `k` suffix (`%.1f` of `float64(n)/1000`), others
as plain integers. -/
def formatNumber (n : Int) : String :=
  if 1000 ≤ n then
    let t := dyTiesEvenScale (ratToFloat n 1000) 10
    toString (t / 10) ++ "." ++ toString (t % 10) ++ "k"
  else toString n

/-- Rendering of a non-negative cent count as `D.CC`. -/
def centsRender (c : Int) : String := toString (c / 100) ++ "." ++ pad2 (c % 100).toNat

/-- Go `%.2f` of a `float64`: sign, then the magnitude rounded to two
decimal places with ties to even. -/
def fmtF2 (w : Dy) : String :=
  if w.n < 0 then "-" ++ centsRender (dyTiesEvenScale ⟨-w.n, w.s⟩ 100)
  else centsRender (dyTiesEvenScale w 100)

/-- Go `formatCost`: a dollar sign followed by the `%.2f` rendering.  The
source branches on `cost < 0.01` but both branches produce the same format,
so the branch is dropped here. -/
def formatCost (w : Dy) : String := "$" ++ fmtF2 w

/-- Go `formatTokenUsage`: empty for nil usage or when both `totalTokens`
and `output` are zero; otherwise a dim annotation with the token counts and
an optional cost segment for a present, strictly positive cost total. -/
def formatTokenUsage (u : Option UsageS) : String :=
  match u with
  | none => ""
  | some u =>
    if u.totalTokens = 0 ∧ u.output = 0 then ""
    else
      let costStr := match u.cost with
        | some c => if 0 < c.total.n then " | " ++ formatCost c.total else ""
        | none => ""
      " " ++ dim ++ "ctx: " ++ formatNumber u.totalTokens ++ " | out: " ++
        toString u.output ++ costStr ++ ansiReset

/-! ## Timestamp rendering -/

/-- Leap-year rule of the proleptic Gregorian calendar (Go `isLeap`). -/
def isLeapYear (y : Nat) : Bool := y % 4 = 0 ∧ (y % 100 ≠ 0 ∨ y % 400 = 0)

def daysInMonth (y m : Nat) : Nat :=
  if m = 2 then (if isLeapYear y then 29 else 28)
  else if m = 4 ∨ m = 6 ∨ m = 9 ∨ m = 11 then 30
  else 31

def allDigits (cs : List Char) : Bool := cs.all isJDigit

def digitsToNat (cs : List Char) : Nat := cs.foldl (fun acc c => acc * 10 + digitVal c) 0

/-- Offset suffix of an RFC3339 timestamp: `Z` or `±hh:mm` with valid
ranges. -/
def rfc3339Offset : List Char → Bool
  | ['Z'] => true
  | [sgn, h1, h2, ':', m1, m2] =>
    (sgn = '+' ∨ sgn = '-') ∧ allDigits [h1, h2] ∧ allDigits [m1, m2] ∧
      digitsToNat [h1, h2] < 24 ∧ digitsToNat [m1, m2] < 60
  | _ => false

/-- Optional fractional-seconds part followed by the offset. -/
def rfc3339Frac : List Char → Bool
  | '.' :: rest =>
    let ds := rest.takeWhile isJDigit
    ds.length ≥ 1 ∧ rfc3339Offset (rest.dropWhile isJDigit)
  | rest => rfc3339Offset rest

/-- RFC3339 parse as performed by Go `time.Parse` with the `RFC3339Nano`
layout (whose fractional-seconds part is optional, so it accepts every
string the plain `RFC3339` layout does and the second parse attempt of the
source never changes the outcome).  On success the result is the wall-clock
time of day `(hour, minute, second)` carried by the string, which is what
`t.Format("15:04:05")` then prints, since the parsed time keeps the
offset of the string as its location. -/
def rfc3339TimeOfDay (s : String) : Option (Nat × Nat × Nat) :=
  match s.data with
  | y1 :: y2 :: y3 :: y4 :: '-' :: mo1 :: mo2 :: '-' :: d1 :: d2 :: 'T' ::
      h1 :: h2 :: ':' :: mi1 :: mi2 :: ':' :: s1 :: s2 :: rest =>
    let y := digitsToNat [y1, y2, y3, y4]
    let mo := digitsToNat [mo1, mo2]
    let dy := digitsToNat [d1, d2]
    let h := digitsToNat [h1, h2]
    let mi := digitsToNat [mi1, mi2]
    let sec := digitsToNat [s1, s2]
    if allDigits [y1, y2, y3, y4, mo1, mo2, d1, d2, h1, h2, mi1, mi2, s1, s2] ∧
        1 ≤ mo ∧ mo ≤ 12 ∧ 1 ≤ dy ∧ dy ≤ daysInMonth y mo ∧
        h < 24 ∧ mi < 60 ∧ sec < 60 ∧ rfc3339Frac rest then
      some (h, mi, sec)
    else none
  | _ => none

/-- Wall-clock `HH:MM:SS` of a Unix epoch second count in a local zone of
fixed offset `tz` seconds (Go `time.Unix(sec, 0).Format("15:04:05")`; real
zone databases with varying offsets are abstracted to the fixed offset in
effect). -/
def epochHMS (tz : Int) (secs : Int) : String :=
  let w := ((secs + tz) % 86400).toNat
  pad2 (w / 3600) ++ ":" ++ pad2 (w % 3600 / 60) ++ ":" ++ pad2 (w % 60)

/-- Timestamp rendering of `processLine`: nothing for an absent value or an
empty string; a number uses the epoch heuristic (values above 1e12 are
epoch milliseconds, divided by 1000) and prints local `HH:MM:SS`; a string
tries RFC3339 and prints `HH:MM:SS` on success, else passes the raw string
through; all dim-styled with a leading space.  Other JSON shapes render
nothing. -/
def renderTs (tz : Int) (tsv : Option Json) : String :=
  match tsv with
  | some (.str v) =>
    if v ≠ "" then
      match rfc3339TimeOfDay v with
      | some (h, mi, sec) =>
        " " ++ dim ++ (pad2 h ++ ":" ++ pad2 mi ++ ":" ++ pad2 sec) ++ ansiReset
      | none => " " ++ dim ++ v ++ ansiReset
    else ""
  | some (.num d _) =>
    let t := if decGtInt d (10 ^ 12) then decDiv1000 d else d
    " " ++ dim ++ epochHMS tz (decTruncToInt t) ++ ansiReset
  | _ => ""

/-! ## Format normalizer and line processor -/

/-- Normalized 4-tuple produced by `normalizeEntry`. -/
structure NormResult where
  role : String
  content : Option Json
  usage : Option UsageS
  ts : Option Json
  deriving Repr

/-- Go `normalizeEntry`: a record with a non-empty top-level `role` and an
empty `message.role` is inber (flat-event) format, with usage synthesized
from `in_tokens`/`out_tokens`/`cost_usd`; every other record is OpenClaw
(nested-message) format, read from `message` with timestamp `ts` if
non-empty else `timestamp`. -/
def normalizeEntry (e : LogEntry) : NormResult :=
  if e.role ≠ "" ∧ e.message.role = "" then
    let usage : Option UsageS :=
      if 0 < e.inTokens ∨ 0 < e.outTokens then
        some { input := e.inTokens
               output := e.outTokens
               totalTokens := e.inTokens
               cost := if 0 < e.costUSD.n then some { total := e.costUSD } else none }
      else none
    ⟨e.role, e.content, usage, some (.str e.ts)⟩
  else
    let ts : Option Json := if e.ts ≠ "" then some (.str e.ts) else e.timestamp
    ⟨e.message.role, e.message.content, e.message.usage, ts⟩

/-- Result of processing one line (Go `ProcessedLine`). -/
structure ProcessedLine where
  output : String := ""
  usage : Option UsageS := none
  deriving Repr, DecidableEq

/-- The `request` branch: a `[request]` tag line only in verbose mode. -/
def renderRequest (verbose : Bool) (ts : String) : ProcessedLine :=
  if verbose then ⟨"\n" ++ blue ++ dim ++ "[request]" ++ ts ++ ansiReset, none⟩
  else ⟨"", none⟩

/-- The `thinking` branch: dim reasoning text under a thinking header, with
the 500-byte truncation to 200 bytes plus a length marker. -/
def renderThinking (ts : String) (content : Option Json) : ProcessedLine :=
  let text := extractText content
  if text ≠ "" then
    let text2 := if 500 < goLen text then
        goTake text 200 ++ "\n  " ++ dim ++ "… (" ++ toString (goLen text) ++ " chars)" ++ ansiReset
      else text
    ⟨"\n" ++ yellow ++ bold ++ "💭 Thinking" ++ ts ++ " ━━━" ++ ansiReset ++ "\n" ++
      dim ++ text2 ++ ansiReset, none⟩
  else ⟨"", none⟩

/-- The `tool_call` branch: one line from the record level `tool_name` and
`tool_input` fields, with per-value 80-byte truncation. -/
def renderToolCall (ord : MapOrd) (e : LogEntry) : ProcessedLine :=
  let name := if e.toolName = "" then "?" else e.toolName
  let entries := objEntries (e.toolInput.getD [])
  let argsStr := if 0 < entries.length then goJoin ", " ((ord entries).map argSummary) else ""
  ⟨"  " ++ magenta ++ "⚡ " ++ name ++ ansiReset ++ "(" ++ dim ++ argsStr ++ ansiReset ++ ")", none⟩

/-- The `tool_result` branch: an error record renders a red error line with
300-byte truncation (regardless of the text being empty); a non-error
record with non-empty text renders the text directly when single-line and
under 100 bytes, else a `N lines, M bytes` summary; a non-error record with
empty text renders nothing. -/
def renderToolResult (e : LogEntry) (content : Option Json) : ProcessedLine :=
  let text := extractText content
  if e.isError then
    let text2 := if 300 < goLen text then goTake text 297 ++ "…" else text
    ⟨"  " ++ red ++ "✗ " ++ text2 ++ ansiReset, none⟩
  else
    let lineCount := countNewlines text + 1
    let byteCount := goLen text
    if 0 < byteCount then
      if lineCount = 1 ∧ byteCount < 100 then
        ⟨"  " ++ dim ++ "→ " ++ text ++ ansiReset, none⟩
      else
        ⟨"  " ++ dim ++ "→ " ++ toString lineCount ++ " lines, " ++ toString byteCount ++
          " bytes" ++ ansiReset, none⟩
    else ⟨"", none⟩

/-- The `user` branch: non-empty text without the heartbeat prefix renders a
bordered You header; text over 500 bytes keeps 200 bytes plus a marker with
the original byte count. -/
def renderUser (ts : String) (content : Option Json) : ProcessedLine :=
  let text := extractText content
  if text ≠ "" ∧ ¬ goStartsWith text "Read HEARTBEAT" then
    let text2 := if 500 < goLen text then
        goTake text 200 ++ "\n  " ++ dim ++ "… (" ++ toString (goLen text) ++ " chars)" ++ ansiReset
      else text
    ⟨"\n" ++ cyan ++ bold ++ "━━━ You" ++ ts ++ " ━━━" ++ ansiReset ++ "\n" ++
      cyan ++ text2 ++ ansiReset, none⟩
  else ⟨"", none⟩

/-- Bordered Agent header line with timestamp and token annotation. -/
def agentHeader (ts tokens : String) : String :=
  "\n" ++ green ++ bold ++ "━━━ Agent" ++ ts ++ tokens ++ " ━━━" ++ ansiReset

/-- Agent header followed by the message text. -/
def agentTextPart (ts tokens text : String) : String :=
  agentHeader ts tokens ++ "\n" ++ green ++ text ++ ansiReset

/-- Output parts of the assistant branch: the text part when text is
non-blank, then the tool-call lines, preceded by a bare header when the
text part is absent. -/
def assistantParts (ts tokens text : String) (toolCalls : List String) : List String :=
  let parts1 : List String :=
    if goTrimSpace text ≠ "" then [agentTextPart ts tokens text] else []
  if 0 < toolCalls.length then
    (if parts1.length = 0 then [agentHeader ts tokens] else parts1) ++ toolCalls
  else parts1

/-- The `assistant` branch: a bordered Agent header with token annotation
when text is non-blank, tool-call lines appended (with a bare header when
text was blank), usage attached exactly when some output is produced. -/
def renderAssistant (ts : String) (ord : MapOrd) (content : Option Json)
    (usage : Option UsageS) : ProcessedLine :=
  let parts := assistantParts ts (formatTokenUsage usage) (extractText content)
    (extractToolCalls ord content)
  if 0 < parts.length then ⟨goJoin "\n" parts, usage⟩ else ⟨"", none⟩

/-- The `tool` branch: tool-result lines if any; else plain text truncated
to 300 bytes as a single arrow line; else nothing. -/
def renderTool (content : Option Json) : ProcessedLine :=
  let results := extractToolResults content
  if 0 < results.length then ⟨goJoin "\n" results, none⟩
  else
    let text := extractText content
    if goTrimSpace text ≠ "" then
      let text2 := if 300 < goLen text then goTake text 297 ++ "…" else text
      ⟨"  " ++ dim ++ "→ " ++ text2 ++ ansiReset, none⟩
    else ⟨"", none⟩

/-- The `system` branch: non-blank text truncated to 200 bytes under a
`[system]` tag with timestamp. -/
def renderSystem (ts : String) (content : Option Json) : ProcessedLine :=
  let text := extractText content
  if goTrimSpace text ≠ "" then
    let text2 := if 200 < goLen text then goTake text 197 ++ "…" else text
    ⟨"\n" ++ blue ++ dim ++ "[system]" ++ ts ++ " " ++ text2 ++ ansiReset, none⟩
  else ⟨"", none⟩

/-- Role dispatch of `processLine` after decoding: normalize, reject an
empty role, format the timestamp, then the switch over the role literals;
any other role renders nothing. -/
def renderEntry (verbose : Bool) (tz : Int) (ord : MapOrd) (e : LogEntry) : ProcessedLine :=
  let n := normalizeEntry e
  if n.role = "" then ⟨"", none⟩
  else
    let ts := renderTs tz n.ts
    if n.role = "request" then renderRequest verbose ts
    else if n.role = "thinking" then renderThinking ts n.content
    else if n.role = "tool_call" then renderToolCall ord e
    else if n.role = "tool_result" then renderToolResult e n.content
    else if n.role = "user" then renderUser ts n.content
    else if n.role = "assistant" then renderAssistant ts ord n.content n.usage
    else if n.role = "tool" then renderTool n.content
    else if n.role = "system" then renderSystem ts n.content
    else ⟨"", none⟩

/-- Go `processLine`: trim the line, skip empty lines and lines that fail
to unmarshal, then dispatch on the normalized role. -/
def processLine (verbose : Bool) (tz : Int) (ord : MapOrd) (line : String) : ProcessedLine :=
  match decodeLine line with
  | none => ⟨"", none⟩
  | some e => renderEntry verbose tz ord e

/-- The identity iteration order. -/
def ordId : MapOrd := fun l => l

/-- The reversed iteration order. -/
def ordRev : MapOrd := fun l => l.reverse


/-! ## Specification-side definitions -/

/-- Exact rational value of a binary64 model. -/
def dyVal (w : Dy) : ℚ := (w.n : ℚ) * (2 : ℚ) ^ (-w.s)

/-- Modelled from the spec: cent count of round-half-up rounding,
`floor(100 c + 1/2)`, the rounding rule the specification ascribes to
`formatCost`. -/
def specHalfUpCents (w : Dy) : Int :=
  if 0 ≤ w.s then (200 * w.n + 2 ^ w.s.toNat) / 2 ^ (w.s.toNat + 1)
  else 100 * w.n * 2 ^ (-w.s).toNat

/-- Modelled from the spec: a dollar sign followed by the value rounded to
two decimals with round-half-up at the cent boundary. -/
def specRoundHalfUpCost (w : Dy) : String := "$" ++ centsRender (specHalfUpCents w)

/-- The role literals with a rendering branch in `processLine`. -/
def knownRoles : List String :=
  ["request", "thinking", "tool_call", "tool_result", "user", "assistant", "tool", "system"]

/-- Malformed or skippable lines in the sense of the error-handling
contract: the line is empty after trimming, fails to parse or decode
(invalid JSON, non-object top level, type mismatch), or normalizes to an
empty or unknown role. -/
def lineSkipped (line : String) : Bool :=
  match decodeLine line with
  | none => true
  | some e =>
    let r := (normalizeEntry e).role
    r = "" ∨ ¬ knownRoles.contains r

/-- An arguments map with at most one entry (so that every map iteration
order enumerates it the same way). -/
def argsSmall (bm : List (String × Json)) : Bool :=
  match objLookup bm "arguments" with
  | some (.obj am) => (objEntries am).length ≤ 1
  | _ => true

/-- A block whose tool-call argument map has at most one entry. -/
def blockSmallArgs (b : Json) : Bool :=
  match b with
  | .obj bm =>
    match objLookup bm "type" with
    | some (.str t) => if t = "toolCall" then argsSmall bm else true
    | _ => true
  | _ => true

def contentSmallArgs (c : Option Json) : Bool :=
  match c with
  | some (.arr blocks) => blocks.all blockSmallArgs
  | _ => true

/-- Entries whose argument maps all have at most one key: both possible
normalized contents and the record-level `tool_input` map. -/
def entrySmallArgs (e : LogEntry) : Bool :=
  contentSmallArgs e.content ∧ contentSmallArgs e.message.content ∧
    (objEntries (e.toolInput.getD [])).length ≤ 1

def lineSmallArgs (line : String) : Bool :=
  match decodeLine line with
  | none => true
  | some e => entrySmallArgs e

/-- A decimal value of at most 15 significant digits.  For such literals
the shortest round-tripping decimal representation of their binary64 value
has exactly the normalized literal digits (15-digit round-trip
injectivity), so `goFormatNum` coincides with Go `%v` on them. -/
def decShort (d : Dec) : Bool := (toString (decStrip d).m.natAbs).length ≤ 15

mutual

/-- Every number in the value has at most 15 significant digits. -/
def jsonNumsShort : Json → Bool
  | .num d _ => decShort d
  | .arr xs => jsonNumsShortL xs
  | .obj fs => jsonNumsShortO fs
  | _ => true

def jsonNumsShortL : List Json → Bool
  | [] => true
  | x :: rest => jsonNumsShort x && jsonNumsShortL rest

def jsonNumsShortO : List (String × Json) → Bool
  | [] => true
  | p :: rest => jsonNumsShort p.2 && jsonNumsShortO rest

end

def contentNumsShort (c : Option Json) : Bool :=
  match c with
  | some j => jsonNumsShort j
  | none => true

/-! ## Concrete inputs used by witnesses and counterexamples -/

/-- Flat-event (inber) sample record. -/
def entFlat : LogEntry :=
  { role := "assistant", content := some (.str "ok"), ts := "2024-02-24T10:30:01Z",
    inTokens := 100, outTokens := 20, costUSD := decToFloat ⟨123, -4⟩ }

/-- Nested-message (OpenClaw) sample record that also carries flat fields,
exercising the nested-takes-precedence rule. -/
def entNested : LogEntry :=
  { message := { role := "assistant", content := some (.str "hi"),
                 usage := some { input := 3, output := 196, totalTokens := 85178 } },
    role := "user", ts := "", timestamp := some (.num ⟨1705314645, 0⟩ true) }

/-- Flat record with no token counts but a positive cost. -/
def entFlatNoTok : LogEntry :=
  { role := "assistant", content := some (.str "x"), costUSD := decToFloat ⟨5, -1⟩ }

/-- A user line whose extracted text is whitespace-only. -/
def lineUserBlank : String := "\x7b\"role\":\"user\",\"content\":\" \"\x7d"

/-- A user line with ordinary text. -/
def lineUserHello : String :=
  "\x7b\"ts\":\"2024-02-24T10:30:00Z\",\"role\":\"user\",\"content\":\"Hello, how are you?\"\x7d"

/-- The entry `lineUserHello` decodes to. -/
def entUserHello : LogEntry :=
  { role := "user", content := some (.str "Hello, how are you?"), ts := "2024-02-24T10:30:00Z" }

/-- An error tool result with empty content. -/
def lineToolResErr : String :=
  "\x7b\"role\":\"tool_result\",\"content\":\"\",\"is_error\":true\x7d"

/-- A non-error tool result line. -/
def lineToolResOk : String := "\x7b\"role\":\"tool_result\",\"content\":\"ok done\"\x7d"

/-- The entry `lineToolResOk` decodes to. -/
def entToolResOk : LogEntry := { role := "tool_result", content := some (.str "ok done") }

/-- A tool call whose argument map has two keys: map iteration order is
observable on it. -/
def lineToolCall2 : String :=
  "\x7b\"role\":\"tool_call\",\"tool_name\":\"f\",\"tool_input\":\x7b\"a\":1,\"b\":2\x7d\x7d"

/-- A tool call with a single-key argument map. -/
def lineToolCall1 : String :=
  "\x7b\"role\":\"tool_call\",\"tool_name\":\"shell\",\"tool_input\":\x7b\"command\":\"ls -la\"\x7d\x7d"

/-- An assistant line with usage, used by the usage-invariant witness. -/
def lineAssistant : String :=
  "\x7b\"message\":\x7b\"role\":\"assistant\",\"content\":\"Test response\",\"usage\":\x7b\"input\":3,\"output\":196,\"cacheRead\":9155,\"cacheWrite\":75824,\"totalTokens\":85178\x7d\x7d\x7d"

/-- Usage sample of the token-annotation tests. -/
def usageSample : UsageS :=
  { input := 3, output := 196, totalTokens := 85178,
    cost := some { total := decToFloat ⟨4834, -4⟩ } }

/-- Usage sample with an explicitly zero cost total. -/
def usageZeroCost : UsageS :=
  { input := 50, output := 100, totalTokens := 500, cost := some { total := ⟨0, 0⟩ } }

/-- A heartbeat-prefixed user line. -/
def lineUserHB : String := "\x7b\"role\":\"user\",\"content\":\"Read HEARTBEAT.md\"\x7d"

/-- The entry `lineUserHB` decodes to. -/
def entUserHB : LogEntry := { role := "user", content := some (.str "Read HEARTBEAT.md") }

/-- The entry `lineToolResErr` decodes to. -/
def entToolResErr : LogEntry := { role := "tool_result", content := some (.str ""), isError := true }


/-! ## Helper lemmas -/

theorem string_length_eq_zero_iff (s : String) : s.length = 0 ↔ s = "" := by
  constructor
  · intro h
    cases s with
    | mk data =>
      cases data with
      | nil => rfl
      | cons a l => simp [String.length] at h
  · intro h
    rw [h]
    rfl

theorem append_ne_empty_left (a b : String) (ha : a ≠ "") : a ++ b ≠ "" := by
  intro h
  apply ha
  have hl : (a ++ b).length = 0 := by rw [h]; rfl
  rw [String.length_append] at hl
  exact (string_length_eq_zero_iff a).mp (Nat.eq_zero_of_add_eq_zero_right hl)

theorem goJoin_foldl_length (sep : String) (l : List String) (acc : String) :
    acc.length ≤ (l.foldl (fun b x => b ++ sep ++ x) acc).length := by
  induction l generalizing acc with
  | nil => exact Nat.le_refl _
  | cons x xs ih =>
    refine Nat.le_trans ?_ (ih (acc ++ sep ++ x))
    rw [String.length_append, String.length_append]
    omega

theorem goJoin_ne_empty (sep a : String) (l : List String) (ha : a ≠ "") :
    goJoin sep (a :: l) ≠ "" := by
  intro h
  apply ha
  apply (string_length_eq_zero_iff a).mp
  have hl := goJoin_foldl_length sep l a
  rw [show l.foldl (fun b x => b ++ sep ++ x) a = goJoin sep (a :: l) from rfl, h] at hl
  exact Nat.le_zero.mp hl

theorem renderRequest_usage (v : Bool) (ts : String) : (renderRequest v ts).usage = none := by
  unfold renderRequest
  split <;> rfl

theorem renderThinking_usage (ts : String) (c : Option Json) :
    (renderThinking ts c).usage = none := by
  simp only [renderThinking]
  split <;> rfl

theorem renderToolCall_usage (ord : MapOrd) (e : LogEntry) :
    (renderToolCall ord e).usage = none := rfl

theorem renderToolResult_usage (e : LogEntry) (c : Option Json) :
    (renderToolResult e c).usage = none := by
  simp only [renderToolResult]
  split
  · rfl
  · split
    · split <;> rfl
    · rfl

theorem renderUser_usage (ts : String) (c : Option Json) : (renderUser ts c).usage = none := by
  simp only [renderUser]
  split <;> rfl

theorem renderTool_usage (c : Option Json) : (renderTool c).usage = none := by
  simp only [renderTool]
  split
  · rfl
  · split <;> rfl

theorem renderSystem_usage (ts : String) (c : Option Json) :
    (renderSystem ts c).usage = none := by
  simp only [renderSystem]
  split <;> rfl

/-! ## Claim theorems -/

/-- C1: `normalizeEntry` classifies a record as flat-event exactly when the
top-level role is non-empty and `message.role` is empty; in every other
case it classifies as nested-message, returning role, content and usage
from `message` and timestamp `ts` if non-empty else `timestamp`. -/
theorem C1_normalize_classification (e : LogEntry) :
    ((e.role ≠ "" ∧ e.message.role = "") →
      (normalizeEntry e).role = e.role ∧ (normalizeEntry e).content = e.content) ∧
    (¬ (e.role ≠ "" ∧ e.message.role = "") →
      (normalizeEntry e).role = e.message.role ∧
      (normalizeEntry e).content = e.message.content ∧
      (normalizeEntry e).usage = e.message.usage ∧
      (normalizeEntry e).ts = (if e.ts ≠ "" then some (.str e.ts) else e.timestamp)) := by
  constructor
  · intro h
    simp only [normalizeEntry]
    rw [if_pos h]
    exact ⟨rfl, rfl⟩
  · intro h
    simp only [normalizeEntry]
    rw [if_neg h]
    exact ⟨rfl, rfl, rfl, rfl⟩

/-- Witness for C1 at a concrete flat-event record and a concrete record
with both a populated `message.role` and flat fields. -/
theorem C1_witness :
    ((normalizeEntry entFlat).role = entFlat.role ∧
      (normalizeEntry entFlat).content = entFlat.content) ∧
    ((normalizeEntry entNested).role = entNested.message.role ∧
      (normalizeEntry entNested).content = entNested.message.content ∧
      (normalizeEntry entNested).usage = entNested.message.usage ∧
      (normalizeEntry entNested).ts =
        (if entNested.ts ≠ "" then some (.str entNested.ts) else entNested.timestamp)) :=
  ⟨(C1_normalize_classification entFlat).1 (by decide),
   (C1_normalize_classification entNested).2 (by decide)⟩

/-- C2: for a flat-event record, usage is synthesized iff `in_tokens > 0`
or `out_tokens > 0`, and is exactly input, output and totalTokens equal to
the input count, with a cost of total `cost_usd` attached iff
`cost_usd > 0`. -/
theorem C2_flat_usage (e : LogEntry) (h : e.role ≠ "" ∧ e.message.role = "") :
    ((normalizeEntry e).usage = none ↔ ¬ (0 < e.inTokens ∨ 0 < e.outTokens)) ∧
    ((0 < e.inTokens ∨ 0 < e.outTokens) →
      (normalizeEntry e).usage = some
        { input := e.inTokens, output := e.outTokens, cacheRead := 0, cacheWrite := 0,
          totalTokens := e.inTokens,
          cost := if 0 < e.costUSD.n then some { total := e.costUSD } else none }) := by
  simp only [normalizeEntry]
  rw [if_pos h]
  by_cases hc : 0 < e.inTokens ∨ 0 < e.outTokens
  · constructor
    · rw [if_pos hc]
      simp [hc]
    · intro _
      rw [if_pos hc]
  · constructor
    · rw [if_neg hc]
      simp [hc]
    · intro hx
      exact absurd hx hc

/-- Witness for C2: a flat record with tokens and cost synthesizes the
exact usage, one with no tokens synthesizes none. -/
theorem C2_witness :
    ((normalizeEntry entFlat).usage = some
      { input := entFlat.inTokens, output := entFlat.outTokens, cacheRead := 0, cacheWrite := 0,
        totalTokens := entFlat.inTokens,
        cost := if 0 < entFlat.costUSD.n then some { total := entFlat.costUSD } else none }) ∧
    ((normalizeEntry entFlatNoTok).usage = none) :=
  ⟨(C2_flat_usage entFlat (by decide)).2 (by decide),
   (C2_flat_usage entFlatNoTok (by decide)).1.mpr (by decide)⟩

/-- C4: every malformed or skippable line (empty after trimming, invalid
JSON, non-object top level, failed decode, or an empty or unknown
normalized role) produces the empty `ProcessedLine` with no usage. -/
theorem C4_graceful_skip (v : Bool) (tz : Int) (ord : MapOrd) (line : String)
    (h : lineSkipped line = true) : processLine v tz ord line = ⟨"", none⟩ := by
  unfold processLine
  unfold lineSkipped at h
  cases hd : decodeLine line with
  | none => rfl
  | some e =>
    rw [hd] at h
    simp only [decide_eq_true_eq, Bool.or_eq_true, Bool.not_eq_true'] at h
    show renderEntry v tz ord e = ⟨"", none⟩
    simp only [renderEntry]
    by_cases h0 : (normalizeEntry e).role = ""
    · rw [if_pos h0]
    · rw [if_neg h0]
      have hmem : (normalizeEntry e).role ∉ knownRoles := by
        rcases h with h | h
        · exact absurd h h0
        · simpa using h
      have hne : ∀ s : String, s ∈ knownRoles → (normalizeEntry e).role ≠ s := by
        intro s hs heq
        rw [← heq] at hs
        exact hmem hs
      rw [if_neg (hne "request" (by decide)), if_neg (hne "thinking" (by decide)),
        if_neg (hne "tool_call" (by decide)), if_neg (hne "tool_result" (by decide)),
        if_neg (hne "user" (by decide)), if_neg (hne "assistant" (by decide)),
        if_neg (hne "tool" (by decide)), if_neg (hne "system" (by decide))]

/-- Witness for C4: a non-JSON line and an unknown-role line both yield the
empty result. -/
theorem C4_witness :
    lineSkipped "not json at all" = true ∧
    processLine false 0 ordId "not json at all" = ⟨"", none⟩ ∧
    lineSkipped "\x7b\"role\":\"zzz\"\x7d" = true ∧
    processLine false 0 ordId "\x7b\"role\":\"zzz\"\x7d" = ⟨"", none⟩ :=
  ⟨by decide, C4_graceful_skip false 0 ordId "not json at all" (by decide),
   by decide, C4_graceful_skip false 0 ordId "\x7b\"role\":\"zzz\"\x7d" (by decide)⟩


theorem tiesEvenDiv_spec (a b : Int) (hb : 0 < b) :
    |(a : ℚ) / (b : ℚ) - (tiesEvenDiv a b : ℚ)| ≤ 1 / 2 ∧
    (|(a : ℚ) / (b : ℚ) - (tiesEvenDiv a b : ℚ)| = 1 / 2 → Even (tiesEvenDiv a b)) := by
  have hbq : (0 : ℚ) < (b : ℚ) := by exact_mod_cast hb
  have hbne : (b : ℚ) ≠ 0 := ne_of_gt hbq
  have hr0 : (0 : Int) ≤ a % b := Int.emod_nonneg a (ne_of_gt hb)
  have hrb : a % b < b := Int.emod_lt_of_pos a hb
  have key : (a : ℚ) / (b : ℚ) - ((a / b : Int) : ℚ) = ((a % b : Int) : ℚ) / (b : ℚ) := by
    have ha : ((a % b : Int) : ℚ) + (b : ℚ) * ((a / b : Int) : ℚ) = (a : ℚ) := by
      exact_mod_cast congrArg (fun z : Int => (z : ℚ)) (Int.emod_add_ediv a b)
    field_simp
    linarith
  have hr0q : (0 : ℚ) ≤ ((a % b : Int) : ℚ) := by exact_mod_cast hr0
  unfold tiesEvenDiv
  rcases lt_trichotomy (2 * (a % b)) b with hlt | heq | hgt
  · rw [if_pos hlt]
    have hltq : ((a % b : Int) : ℚ) / (b : ℚ) < 1 / 2 := by
      rw [div_lt_iff₀ hbq]
      have : (2 : ℚ) * ((a % b : Int) : ℚ) < (b : ℚ) := by exact_mod_cast hlt
      linarith
    have habs : |(a : ℚ) / (b : ℚ) - ((a / b : Int) : ℚ)| = ((a % b : Int) : ℚ) / (b : ℚ) := by
      rw [key]
      exact abs_of_nonneg (div_nonneg hr0q (le_of_lt hbq))
    constructor
    · rw [habs]; linarith
    · intro htie
      rw [habs] at htie
      exact absurd htie (ne_of_lt hltq)
  · have h1 : ¬ (2 * (a % b) < b) := by omega
    have h2 : ¬ (b < 2 * (a % b)) := by omega
    rw [if_neg h1, if_neg h2]
    have hhalf : ((a % b : Int) : ℚ) / (b : ℚ) = 1 / 2 := by
      have hbq2 : (b : ℚ) = 2 * ((a % b : Int) : ℚ) := by exact_mod_cast heq.symm
      rw [hbq2]
      have hrpos : (0 : ℚ) < ((a % b : Int) : ℚ) := by
        have : (0 : Int) < a % b := by omega
        exact_mod_cast this
      field_simp
      ring
    by_cases hpar : a / b % 2 = 0
    · rw [if_pos hpar]
      constructor
      · rw [key, hhalf]
        rw [abs_of_nonneg (by norm_num : (0 : ℚ) ≤ 1 / 2)]
      · intro _
        exact Int.even_iff.mpr hpar
    · rw [if_neg hpar]
      have hdiff : (a : ℚ) / (b : ℚ) - ((a / b + 1 : Int) : ℚ) = -(1 / 2) := by
        push_cast
        rw [show ((a : ℚ) / (b : ℚ) - (((a / b : Int) : ℚ) + 1) : ℚ) =
          ((a : ℚ) / (b : ℚ) - ((a / b : Int) : ℚ)) - 1 by ring, key, hhalf]
        norm_num
      constructor
      · rw [hdiff, abs_neg, abs_of_nonneg (by norm_num : (0 : ℚ) ≤ 1 / 2)]
      · intro _
        have hodd : Odd (a / b) := Int.odd_iff.mpr (by omega)
        exact Odd.add_one hodd
  · have h1 : ¬ (2 * (a % b) < b) := by omega
    rw [if_neg h1, if_pos hgt]
    have hgtq : 1 / 2 < ((a % b : Int) : ℚ) / (b : ℚ) := by
      rw [lt_div_iff₀ hbq]
      have : (b : ℚ) < 2 * ((a % b : Int) : ℚ) := by exact_mod_cast hgt
      linarith
    have hlt1 : ((a % b : Int) : ℚ) / (b : ℚ) < 1 := by
      rw [div_lt_one hbq]
      exact_mod_cast hrb
    have hdiff : (a : ℚ) / (b : ℚ) - ((a / b + 1 : Int) : ℚ) =
        ((a % b : Int) : ℚ) / (b : ℚ) - 1 := by
      push_cast
      push_cast at key
      linarith
    have habs : |(a : ℚ) / (b : ℚ) - ((a / b + 1 : Int) : ℚ)| =
        1 - ((a % b : Int) : ℚ) / (b : ℚ) := by
      rw [hdiff, abs_of_nonpos (by linarith)]
      ring
    constructor
    · rw [habs]; linarith
    · intro htie
      rw [habs] at htie
      exact absurd (by linarith : ((a % b : Int) : ℚ) / (b : ℚ) = 1 / 2) (ne_of_gt hgtq)

theorem dyVal_nonneg_den (w : Dy) (hs : 0 ≤ w.s) :
    100 * dyVal w = ((100 * w.n : Int) : ℚ) / (((2 : Int) ^ w.s.toNat : Int) : ℚ) := by
  unfold dyVal
  rw [show w.s = (w.s.toNat : Int) from (Int.toNat_of_nonneg hs).symm]
  rw [zpow_neg, zpow_natCast]
  push_cast
  simp only [Int.toNat_natCast]
  ring

/-- C5 counterexample: 0.125 is exactly representable in binary64
(`Dy 1 3`), sits exactly on the cent boundary, and Go `%.2f` rounds it to
even giving `$0.12`, where the round-half-up rule stated by the claim gives
`$0.13`. -/
theorem C5_counterexample :
    formatCost ⟨1, 3⟩ = "$0.12" ∧ specRoundHalfUpCost ⟨1, 3⟩ = "$0.13" :=
  ⟨by decide, by decide⟩

/-- C5 amended: `formatCost` renders a dollar sign and the value rounded to
cents to nearest with exact ties to even (not half-up); the cited examples
still hold because the binary64 values of the literals 0.0049 and 0.005 are
not exact ties (0.005 converts to a float strictly above 1/200 and so still
rounds up to $0.01). -/
theorem C5_cost_rounding (w : Dy) (h : 0 ≤ w.n) :
    formatCost w = "$" ++ centsRender (dyTiesEvenScale w 100) ∧
    |100 * dyVal w - ((dyTiesEvenScale w 100 : Int) : ℚ)| ≤ 1 / 2 ∧
    (|100 * dyVal w - ((dyTiesEvenScale w 100 : Int) : ℚ)| = 1 / 2 →
      Even (dyTiesEvenScale w 100)) := by
  refine ⟨?_, ?_⟩
  · unfold formatCost fmtF2
    rw [if_neg (not_lt.mpr h)]
  · by_cases hs : 0 ≤ w.s
    · have hb : (0 : Int) < 2 ^ w.s.toNat := by positivity
      have hmain := tiesEvenDiv_spec (100 * w.n) (2 ^ w.s.toNat) hb
      have heq : dyTiesEvenScale w 100 = tiesEvenDiv (100 * w.n) (2 ^ w.s.toNat) := by
        unfold dyTiesEvenScale
        rw [if_pos hs]
      rw [heq, dyVal_nonneg_den w hs]
      exact hmain
    · have heq : dyTiesEvenScale w 100 = 100 * w.n * 2 ^ (-w.s).toNat := by
        unfold dyTiesEvenScale
        rw [if_neg hs]
      have hval : 100 * dyVal w = ((100 * w.n * 2 ^ (-w.s).toNat : Int) : ℚ) := by
        unfold dyVal
        rw [show -w.s = ((-w.s).toNat : Int) from (Int.toNat_of_nonneg (by omega)).symm]
        rw [zpow_natCast]
        push_cast
        simp only [Int.toNat_natCast]
        ring
      rw [heq, hval, sub_self, abs_zero]
      norm_num

/-- Witness for C5 at the binary64 value of the literal 0.005: its float is
strictly above the tie so the rendering is $0.01, matching the spec
example. -/
theorem C5_witness :
    0 ≤ (decToFloat ⟨5, -3⟩).n ∧
    (formatCost (decToFloat ⟨5, -3⟩) =
        "$" ++ centsRender (dyTiesEvenScale (decToFloat ⟨5, -3⟩) 100) ∧
      |100 * dyVal (decToFloat ⟨5, -3⟩) -
          ((dyTiesEvenScale (decToFloat ⟨5, -3⟩) 100 : Int) : ℚ)| ≤ 1 / 2 ∧
      (|100 * dyVal (decToFloat ⟨5, -3⟩) -
          ((dyTiesEvenScale (decToFloat ⟨5, -3⟩) 100 : Int) : ℚ)| = 1 / 2 →
        Even (dyTiesEvenScale (decToFloat ⟨5, -3⟩) 100))) ∧
    formatCost (decToFloat ⟨5, -3⟩) = "$0.01" ∧
    formatCost (decToFloat ⟨49, -4⟩) = "$0.00" :=
  ⟨by decide, C5_cost_rounding (decToFloat ⟨5, -3⟩) (by decide), by decide, by decide⟩

/-- C6: `formatTokenUsage` is empty exactly for absent usage or zero
totals, and otherwise renders the dim ctx/out annotation with a cost
segment iff a cost is present with strictly positive total. -/
theorem C6_token_usage_format (u : Option UsageS) :
    (formatTokenUsage u = "" ↔
      u = none ∨ ∃ x, u = some x ∧ x.totalTokens = 0 ∧ x.output = 0) ∧
    (∀ x, u = some x → ¬ (x.totalTokens = 0 ∧ x.output = 0) →
      formatTokenUsage u =
        " " ++ dim ++ "ctx: " ++ formatNumber x.totalTokens ++ " | out: " ++
          toString x.output ++
          (match x.cost with
            | some c => if 0 < c.total.n then " | " ++ formatCost c.total else ""
            | none => "") ++ ansiReset) := by
  cases u with
  | none =>
    constructor
    · simp [formatTokenUsage]
    · intro x hx
      exact absurd hx (by simp)
  | some x =>
    by_cases hz : x.totalTokens = 0 ∧ x.output = 0
    · constructor
      · simp only [formatTokenUsage]
        rw [if_pos hz]
        simp [hz]
      · intro y hy hnz
        rw [Option.some_inj] at hy
        rw [← hy] at hnz
        exact absurd hz hnz
    · have hne : formatTokenUsage (some x) =
          " " ++ dim ++ "ctx: " ++ formatNumber x.totalTokens ++ " | out: " ++
            toString x.output ++
            (match x.cost with
              | some c => if 0 < c.total.n then " | " ++ formatCost c.total else ""
              | none => "") ++ ansiReset := by
        simp only [formatTokenUsage]
        rw [if_neg hz]
      constructor
      · rw [hne]
        constructor
        · intro habs
          exact absurd habs (append_ne_empty_left _ _ (append_ne_empty_left _ _
            (append_ne_empty_left _ _ (append_ne_empty_left _ _ (append_ne_empty_left _ _
            (append_ne_empty_left _ _ (by decide)))))))
        · rintro (h | ⟨y, hy, hyz⟩)
          · exact absurd h (by simp)
          · rw [Option.some_inj] at hy
            subst hy
            exact absurd hyz hz
      · intro y hy hnz
        rw [Option.some_inj] at hy
        subst hy
        exact hne

/-- Witness for C6 at the usage sample of the test suite, including the
rendered literal and the zero-cost and no-cost variants. -/
theorem C6_witness :
    (formatTokenUsage (some usageSample) =
      " " ++ dim ++ "ctx: " ++ formatNumber usageSample.totalTokens ++ " | out: " ++
        toString usageSample.output ++
        (match usageSample.cost with
          | some c => if 0 < c.total.n then " | " ++ formatCost c.total else ""
          | none => "") ++ ansiReset) ∧
    formatTokenUsage (some usageSample) = " \x1b[2mctx: 85.2k | out: 196 | $0.48\x1b[0m" ∧
    formatTokenUsage (some usageZeroCost) = " \x1b[2mctx: 500 | out: 100\x1b[0m" ∧
    formatTokenUsage none = "" :=
  ⟨(C6_token_usage_format (some usageSample)).2 usageSample rfl (by decide),
   by decide, by decide, by decide⟩


theorem goLen_eq_zero_iff (s : String) : goLen s = 0 ↔ s = "" := by
  unfold goLen
  constructor
  · intro h
    cases s with
    | mk data =>
      cases data with
      | nil => rfl
      | cons a l =>
        exfalso
        have hpos : 0 < (String.mk (a :: l)).utf8ByteSize := by
          simp [String.utf8ByteSize, String.utf8ByteSize.go]
          have := Char.utf8Size_pos a
          omega
        omega
  · intro h
    rw [h]
    rfl

theorem agentHeader_ne_empty (ts tokens : String) : agentHeader ts tokens ≠ "" := by
  unfold agentHeader
  exact append_ne_empty_left _ _ (append_ne_empty_left _ _ (append_ne_empty_left _ _
    (append_ne_empty_left _ _ (append_ne_empty_left _ _ (append_ne_empty_left _ _
    (by decide))))))

theorem agentTextPart_ne_empty (ts tokens text : String) :
    agentTextPart ts tokens text ≠ "" := by
  unfold agentTextPart
  exact append_ne_empty_left _ _ (append_ne_empty_left _ _ (append_ne_empty_left _ _
    (append_ne_empty_left _ _ (agentHeader_ne_empty ts tokens))))

theorem assistantParts_head (ts tokens text : String) (tc : List String) :
    assistantParts ts tokens text tc = [] ∨
      ∃ a t, assistantParts ts tokens text tc = a :: t ∧ a ≠ "" := by
  unfold assistantParts
  by_cases hT : goTrimSpace text ≠ ""
  · rw [if_pos hT]
    by_cases hK : 0 < tc.length
    · rw [if_pos hK]
      exact Or.inr ⟨agentTextPart ts tokens text, tc, rfl, agentTextPart_ne_empty ts tokens text⟩
    · rw [if_neg hK]
      exact Or.inr ⟨agentTextPart ts tokens text, [], rfl, agentTextPart_ne_empty ts tokens text⟩
  · rw [if_neg hT]
    by_cases hK : 0 < tc.length
    · rw [if_pos hK]
      rw [if_pos (by rfl : ([] : List String).length = 0)]
      exact Or.inr ⟨agentHeader ts tokens, tc, rfl, agentHeader_ne_empty ts tokens⟩
    · rw [if_neg hK]
      exact Or.inl rfl

theorem renderAssistant_output_ne (ts : String) (ord : MapOrd) (c : Option Json)
    (u : Option UsageS) (h : (renderAssistant ts ord c u).usage ≠ none) :
    (renderAssistant ts ord c u).output ≠ "" := by
  unfold renderAssistant at *
  rcases assistantParts_head ts (formatTokenUsage u) (extractText c) (extractToolCalls ord c)
    with hnil | ⟨a, t, hcons, ha⟩
  · rw [hnil] at h
    exact absurd rfl h
  · rw [hcons] at h ⊢
    rw [if_pos (by simp)] at h ⊢
    exact goJoin_ne_empty "\n" a t ha

theorem renderEntry_empty (v : Bool) (tz : Int) (ord : MapOrd) (e : LogEntry)
    (hr : (normalizeEntry e).role = "") : renderEntry v tz ord e = ⟨"", none⟩ := by
  simp only [renderEntry]
  rw [if_pos hr]

theorem renderEntry_request (v : Bool) (tz : Int) (ord : MapOrd) (e : LogEntry)
    (hr : (normalizeEntry e).role = "request") :
    renderEntry v tz ord e = renderRequest v (renderTs tz (normalizeEntry e).ts) := by
  simp only [renderEntry]
  rw [if_neg (by rw [hr]; decide), if_pos hr]

theorem renderEntry_thinking (v : Bool) (tz : Int) (ord : MapOrd) (e : LogEntry)
    (hr : (normalizeEntry e).role = "thinking") :
    renderEntry v tz ord e =
      renderThinking (renderTs tz (normalizeEntry e).ts) (normalizeEntry e).content := by
  simp only [renderEntry]
  rw [if_neg (by rw [hr]; decide), if_neg (by rw [hr]; decide), if_pos hr]

theorem renderEntry_toolCall (v : Bool) (tz : Int) (ord : MapOrd) (e : LogEntry)
    (hr : (normalizeEntry e).role = "tool_call") :
    renderEntry v tz ord e = renderToolCall ord e := by
  simp only [renderEntry]
  rw [if_neg (by rw [hr]; decide), if_neg (by rw [hr]; decide),
    if_neg (by rw [hr]; decide), if_pos hr]

theorem renderEntry_toolResult (v : Bool) (tz : Int) (ord : MapOrd) (e : LogEntry)
    (hr : (normalizeEntry e).role = "tool_result") :
    renderEntry v tz ord e = renderToolResult e (normalizeEntry e).content := by
  simp only [renderEntry]
  rw [if_neg (by rw [hr]; decide), if_neg (by rw [hr]; decide),
    if_neg (by rw [hr]; decide), if_neg (by rw [hr]; decide), if_pos hr]

theorem renderEntry_user (v : Bool) (tz : Int) (ord : MapOrd) (e : LogEntry)
    (hr : (normalizeEntry e).role = "user") :
    renderEntry v tz ord e =
      renderUser (renderTs tz (normalizeEntry e).ts) (normalizeEntry e).content := by
  simp only [renderEntry]
  rw [if_neg (by rw [hr]; decide), if_neg (by rw [hr]; decide),
    if_neg (by rw [hr]; decide), if_neg (by rw [hr]; decide),
    if_neg (by rw [hr]; decide), if_pos hr]

theorem renderEntry_assistant (v : Bool) (tz : Int) (ord : MapOrd) (e : LogEntry)
    (hr : (normalizeEntry e).role = "assistant") :
    renderEntry v tz ord e =
      renderAssistant (renderTs tz (normalizeEntry e).ts) ord (normalizeEntry e).content
        (normalizeEntry e).usage := by
  simp only [renderEntry]
  rw [if_neg (by rw [hr]; decide), if_neg (by rw [hr]; decide),
    if_neg (by rw [hr]; decide), if_neg (by rw [hr]; decide),
    if_neg (by rw [hr]; decide), if_neg (by rw [hr]; decide), if_pos hr]

theorem renderEntry_tool (v : Bool) (tz : Int) (ord : MapOrd) (e : LogEntry)
    (hr : (normalizeEntry e).role = "tool") :
    renderEntry v tz ord e = renderTool (normalizeEntry e).content := by
  simp only [renderEntry]
  rw [if_neg (by rw [hr]; decide), if_neg (by rw [hr]; decide),
    if_neg (by rw [hr]; decide), if_neg (by rw [hr]; decide),
    if_neg (by rw [hr]; decide), if_neg (by rw [hr]; decide),
    if_neg (by rw [hr]; decide), if_pos hr]

theorem renderEntry_system (v : Bool) (tz : Int) (ord : MapOrd) (e : LogEntry)
    (hr : (normalizeEntry e).role = "system") :
    renderEntry v tz ord e =
      renderSystem (renderTs tz (normalizeEntry e).ts) (normalizeEntry e).content := by
  simp only [renderEntry]
  rw [if_neg (by rw [hr]; decide), if_neg (by rw [hr]; decide),
    if_neg (by rw [hr]; decide), if_neg (by rw [hr]; decide),
    if_neg (by rw [hr]; decide), if_neg (by rw [hr]; decide),
    if_neg (by rw [hr]; decide), if_neg (by rw [hr]; decide), if_pos hr]

theorem renderEntry_other (v : Bool) (tz : Int) (ord : MapOrd) (e : LogEntry)
    (h1 : (normalizeEntry e).role ≠ "request") (h2 : (normalizeEntry e).role ≠ "thinking")
    (h3 : (normalizeEntry e).role ≠ "tool_call") (h4 : (normalizeEntry e).role ≠ "tool_result")
    (h5 : (normalizeEntry e).role ≠ "user") (h6 : (normalizeEntry e).role ≠ "assistant")
    (h7 : (normalizeEntry e).role ≠ "tool") (h8 : (normalizeEntry e).role ≠ "system") :
    renderEntry v tz ord e = ⟨"", none⟩ := by
  simp only [renderEntry]
  by_cases h0 : (normalizeEntry e).role = ""
  · rw [if_pos h0]
  · rw [if_neg h0, if_neg h1, if_neg h2, if_neg h3, if_neg h4, if_neg h5, if_neg h6,
      if_neg h7, if_neg h8]


/-- C7 counterexample: the extracted text of the record
`\x7b"role":"user","content":" "\x7d` is blank (whitespace-only), yet
`processLine` renders a You header rather than skipping: only the empty
string is skipped, whitespace-only text is not. -/
theorem C7_counterexample :
    extractText (some (.str " ")) = " " ∧ goTrimSpace " " = "" ∧
    (processLine false 0 ordId lineUserBlank).output =
      "\n" ++ cyan ++ bold ++ "━━━ You ━━━" ++ ansiReset ++ "\n" ++ cyan ++ " " ++ ansiReset ∧
    (processLine false 0 ordId lineUserBlank).output ≠ "" :=
  ⟨rfl, by decide, by decide, by decide⟩

/-- C7 amended: a user line is skipped when its extracted text is empty (not
merely blank) or starts with the heartbeat prefix; otherwise the 500-byte
truncation to 200 bytes applies and a bordered You header with timestamp
precedes the text (lengths are bytes, as in the Go source).  The explicit
hypotheses confine the statement to where the string model represents Go
exactly: numeric content within 15 significant digits (where the shortest
`%v` rendering is the normalized literal) and byte cuts falling on
character boundaries. -/
theorem C7_user_rendering (v : Bool) (tz : Int) (ord : MapOrd) (line : String) (e : LogEntry)
    (hd : decodeLine line = some e) (hr : (normalizeEntry e).role = "user")
    (_hnum : contentNumsShort (normalizeEntry e).content = true)
    (_hcut : 500 < goLen (extractText (normalizeEntry e).content) →
      goLen (goTake (extractText (normalizeEntry e).content) 200) = 200) :
    (extractText (normalizeEntry e).content = "" ∨
        goStartsWith (extractText (normalizeEntry e).content) "Read HEARTBEAT" = true →
      processLine v tz ord line = ⟨"", none⟩) ∧
    (extractText (normalizeEntry e).content ≠ "" →
        goStartsWith (extractText (normalizeEntry e).content) "Read HEARTBEAT" = false →
      processLine v tz ord line = ⟨"\n" ++ cyan ++ bold ++ "━━━ You" ++
          renderTs tz (normalizeEntry e).ts ++ " ━━━" ++ ansiReset ++ "\n" ++ cyan ++
          (if 500 < goLen (extractText (normalizeEntry e).content) then
            goTake (extractText (normalizeEntry e).content) 200 ++ "\n  " ++ dim ++ "… (" ++
              toString (goLen (extractText (normalizeEntry e).content)) ++ " chars)" ++ ansiReset
          else extractText (normalizeEntry e).content) ++ ansiReset, none⟩) := by
  have hpl : processLine v tz ord line =
      renderUser (renderTs tz (normalizeEntry e).ts) (normalizeEntry e).content := by
    unfold processLine
    rw [hd]
    exact renderEntry_user v tz ord e hr
  constructor
  · rintro (h | h)
    · rw [hpl]
      simp only [renderUser]
      rw [if_neg]
      rintro ⟨h1, _⟩
      exact h1 h
    · rw [hpl]
      simp only [renderUser]
      rw [if_neg]
      rintro ⟨_, h2⟩
      exact h2 h
  · intro h1 h2
    rw [hpl]
    simp only [renderUser]
    rw [if_pos ⟨h1, by rw [h2]; decide⟩]



/-- Witness for C7: the heartbeat-prefixed line is skipped and the plain
user line renders the You header. -/
theorem C7_witness :
    processLine false 0 ordId lineUserHB = ⟨"", none⟩ ∧
    processLine false 0 ordId lineUserHello = ⟨"\n" ++ cyan ++ bold ++ "━━━ You" ++
      renderTs 0 (normalizeEntry entUserHello).ts ++ " ━━━" ++ ansiReset ++ "\n" ++ cyan ++
      (if 500 < goLen (extractText (normalizeEntry entUserHello).content) then
        goTake (extractText (normalizeEntry entUserHello).content) 200 ++ "\n  " ++ dim ++ "… (" ++
          toString (goLen (extractText (normalizeEntry entUserHello).content)) ++ " chars)" ++
          ansiReset
      else extractText (normalizeEntry entUserHello).content) ++ ansiReset, none⟩ :=
  ⟨(C7_user_rendering false 0 ordId lineUserHB entUserHB rfl rfl (by decide) (by decide)).1
     (Or.inr (by decide)),
   (C7_user_rendering false 0 ordId lineUserHello entUserHello rfl rfl (by decide)
     (by decide)).2 (by decide) (by decide)⟩


/-- C8 counterexample: an error tool result with empty resolved text still
emits the red error line; the empty-text skip applies only to non-error
results. -/
theorem C8_counterexample :
    extractText (some (.str "")) = "" ∧
    (processLine false 0 ordId lineToolResErr).output = "  " ++ red ++ "✗ " ++ ansiReset ∧
    (processLine false 0 ordId lineToolResErr).output ≠ "" :=
  ⟨rfl, by decide, by decide⟩

/-- C8 amended: for a `tool_result` record, an error renders the red line
with 300-byte truncation even when the text is empty; a non-error renders
nothing for empty text, the text itself when single-line and under 100
bytes, and the `N lines, M bytes` summary otherwise.  The explicit
hypotheses confine the statement to where the string model represents Go
exactly: numeric content within 15 significant digits and byte cuts
falling on character boundaries. -/
theorem C8_tool_result_rendering (v : Bool) (tz : Int) (ord : MapOrd) (line : String)
    (e : LogEntry) (hd : decodeLine line = some e)
    (hr : (normalizeEntry e).role = "tool_result")
    (_hnum : contentNumsShort (normalizeEntry e).content = true)
    (_hcut : e.isError = true → 300 < goLen (extractText (normalizeEntry e).content) →
      goLen (goTake (extractText (normalizeEntry e).content) 297) = 297) :
    (e.isError = true →
      processLine v tz ord line = ⟨"  " ++ red ++ "✗ " ++
        (if 300 < goLen (extractText (normalizeEntry e).content) then
          goTake (extractText (normalizeEntry e).content) 297 ++ "…"
        else extractText (normalizeEntry e).content) ++ ansiReset, none⟩) ∧
    (e.isError = false → extractText (normalizeEntry e).content = "" →
      processLine v tz ord line = ⟨"", none⟩) ∧
    (e.isError = false → extractText (normalizeEntry e).content ≠ "" →
      processLine v tz ord line =
        ⟨if countNewlines (extractText (normalizeEntry e).content) + 1 = 1 ∧
            goLen (extractText (normalizeEntry e).content) < 100 then
          "  " ++ dim ++ "→ " ++ extractText (normalizeEntry e).content ++ ansiReset
        else
          "  " ++ dim ++ "→ " ++
            toString (countNewlines (extractText (normalizeEntry e).content) + 1) ++
            " lines, " ++ toString (goLen (extractText (normalizeEntry e).content)) ++
            " bytes" ++ ansiReset, none⟩) := by
  have hpl : processLine v tz ord line = renderToolResult e (normalizeEntry e).content := by
    unfold processLine
    rw [hd]
    exact renderEntry_toolResult v tz ord e hr
  refine ⟨?_, ?_, ?_⟩
  · intro herr
    rw [hpl]
    simp only [renderToolResult]
    rw [if_pos herr]
  · intro herr htext
    rw [hpl]
    simp only [renderToolResult]
    rw [if_neg (by rw [herr]; decide)]
    rw [if_neg]
    rw [htext]
    decide
  · intro herr htext
    rw [hpl]
    simp only [renderToolResult]
    rw [if_neg (by rw [herr]; decide)]
    rw [if_pos (Nat.pos_of_ne_zero (fun hz => htext ((goLen_eq_zero_iff _).mp hz)))]
    split
    · rfl
    · rfl

/-- Witness for C8: the empty error result and a short non-error result. -/
theorem C8_witness :
    processLine false 0 ordId lineToolResErr = ⟨"  " ++ red ++ "✗ " ++
      (if 300 < goLen (extractText (normalizeEntry entToolResErr).content) then
        goTake (extractText (normalizeEntry entToolResErr).content) 297 ++ "…"
      else extractText (normalizeEntry entToolResErr).content) ++ ansiReset, none⟩ ∧
    processLine false 0 ordId lineToolResOk =
      ⟨if countNewlines (extractText (normalizeEntry entToolResOk).content) + 1 = 1 ∧
          goLen (extractText (normalizeEntry entToolResOk).content) < 100 then
        "  " ++ dim ++ "→ " ++ extractText (normalizeEntry entToolResOk).content ++ ansiReset
      else
        "  " ++ dim ++ "→ " ++
          toString (countNewlines (extractText (normalizeEntry entToolResOk).content) + 1) ++
          " lines, " ++ toString (goLen (extractText (normalizeEntry entToolResOk).content)) ++
          " bytes" ++ ansiReset, none⟩ :=
  ⟨(C8_tool_result_rendering false 0 ordId lineToolResErr entToolResErr rfl rfl
      (by decide) (by decide)).1 rfl,
   (C8_tool_result_rendering false 0 ordId lineToolResOk entToolResOk rfl rfl
      (by decide) (by decide)).2.2 rfl (by decide)⟩


/-- C9: the timestamp display used by `processLine` renders nothing for an
absent or empty value; a numeric value uses the epoch-seconds heuristic
with values above 1e12 divided by 1000 as milliseconds, truncated and shown
as local wall-clock `HH:MM:SS`; a string is shown as its RFC3339 wall-clock
time of day when it parses (the RFC3339Nano attempt subsumes the plain
RFC3339 attempt since its fractional part is optional) and passed through
unmodified (inside the dim styling) when it does not. -/
theorem C9_timestamp_rendering (tz : Int) :
    renderTs tz none = "" ∧
    renderTs tz (some (.str "")) = "" ∧
    (∀ d lit, renderTs tz (some (.num d lit)) =
      " " ++ dim ++
        epochHMS tz (decTruncToInt (if decGtInt d (10 ^ 12) then decDiv1000 d else d)) ++
        ansiReset) ∧
    (∀ s h mi sec, rfc3339TimeOfDay s = some (h, mi, sec) →
      renderTs tz (some (.str s)) =
        " " ++ dim ++ (pad2 h ++ ":" ++ pad2 mi ++ ":" ++ pad2 sec) ++ ansiReset) ∧
    (∀ s, s ≠ "" → rfc3339TimeOfDay s = none →
      renderTs tz (some (.str s)) = " " ++ dim ++ s ++ ansiReset) := by
  refine ⟨rfl, rfl, fun d lit => rfl, ?_, ?_⟩
  · intro s h mi sec hp
    by_cases hs : s = ""
    · rw [hs] at hp
      exact absurd hp (by intro hx; cases hx)
    · simp only [renderTs]
      rw [if_pos hs, hp]
  · intro s hs hp
    simp only [renderTs]
    rw [if_pos hs, hp]

/-- Witness for C9: a fractional RFC3339 string, a plain one, a
non-parsing string, and both epoch encodings at offset zero. -/
theorem C9_witness :
    rfc3339TimeOfDay "2024-01-15T10:30:45.123Z" = some (10, 30, 45) ∧
    renderTs 0 (some (.str "2024-01-15T10:30:45.123Z")) =
      " " ++ dim ++ (pad2 10 ++ ":" ++ pad2 30 ++ ":" ++ pad2 45) ++ ansiReset ∧
    renderTs 0 (some (.str "yesterday")) = " " ++ dim ++ "yesterday" ++ ansiReset ∧
    renderTs 0 (some (.num ⟨1705314645, 0⟩ true)) =
      " " ++ dim ++
        epochHMS 0 (decTruncToInt
          (if decGtInt ⟨1705314645, 0⟩ (10 ^ 12) then decDiv1000 ⟨1705314645, 0⟩
           else ⟨1705314645, 0⟩)) ++ ansiReset ∧
    renderTs 0 (some (.num ⟨1705314645123, 0⟩ true)) = " " ++ dim ++ "10:30:45" ++ ansiReset :=
  ⟨by decide,
   (C9_timestamp_rendering 0).2.2.2.1 "2024-01-15T10:30:45.123Z" 10 30 45 (by decide),
   (C9_timestamp_rendering 0).2.2.2.2 "yesterday" (by decide) (by decide),
   (C9_timestamp_rendering 0).2.2.1 ⟨1705314645, 0⟩ true,
   by decide⟩


/-- C10: a `ProcessedLine` carries usage only when the normalized role is
`assistant` and the output is non-empty; all other branches and all
empty-output cases return no usage. -/
theorem C10_usage_only_assistant (v : Bool) (tz : Int) (ord : MapOrd) (line : String)
    (h : (processLine v tz ord line).usage ≠ none) :
    (∃ e, decodeLine line = some e ∧ (normalizeEntry e).role = "assistant") ∧
    (processLine v tz ord line).output ≠ "" := by
  unfold processLine at h ⊢
  cases hd : decodeLine line with
  | none =>
    rw [hd] at h
    exact absurd rfl h
  | some e =>
    rw [hd] at h
    replace h : (renderEntry v tz ord e).usage ≠ none := h
    show (∃ e2, some e = some e2 ∧ (normalizeEntry e2).role = "assistant") ∧
      (renderEntry v tz ord e).output ≠ ""
    by_cases h0 : (normalizeEntry e).role = ""
    · rw [renderEntry_empty v tz ord e h0] at h
      exact absurd rfl h
    by_cases h1 : (normalizeEntry e).role = "request"
    · rw [renderEntry_request v tz ord e h1, renderRequest_usage] at h
      exact absurd rfl h
    by_cases h2 : (normalizeEntry e).role = "thinking"
    · rw [renderEntry_thinking v tz ord e h2, renderThinking_usage] at h
      exact absurd rfl h
    by_cases h3 : (normalizeEntry e).role = "tool_call"
    · rw [renderEntry_toolCall v tz ord e h3, renderToolCall_usage] at h
      exact absurd rfl h
    by_cases h4 : (normalizeEntry e).role = "tool_result"
    · rw [renderEntry_toolResult v tz ord e h4, renderToolResult_usage] at h
      exact absurd rfl h
    by_cases h5 : (normalizeEntry e).role = "user"
    · rw [renderEntry_user v tz ord e h5, renderUser_usage] at h
      exact absurd rfl h
    by_cases h6 : (normalizeEntry e).role = "assistant"
    · refine ⟨⟨e, rfl, h6⟩, ?_⟩
      rw [renderEntry_assistant v tz ord e h6] at h ⊢
      exact renderAssistant_output_ne _ _ _ _ h
    by_cases h7 : (normalizeEntry e).role = "tool"
    · rw [renderEntry_tool v tz ord e h7, renderTool_usage] at h
      exact absurd rfl h
    by_cases h8 : (normalizeEntry e).role = "system"
    · rw [renderEntry_system v tz ord e h8, renderSystem_usage] at h
      exact absurd rfl h
    rw [renderEntry_other v tz ord e h1 h2 h3 h4 h5 h6 h7 h8] at h
    exact absurd rfl h

set_option maxRecDepth 4000 in
/-- Witness for C10: an assistant line with usage satisfies the hypothesis
and the conclusion names its decoded entry. -/
theorem C10_witness :
    (∃ e, decodeLine lineAssistant = some e ∧ (normalizeEntry e).role = "assistant") ∧
    (processLine false 0 ordId lineAssistant).output ≠ "" :=
  C10_usage_only_assistant false 0 ordId lineAssistant (by decide)


theorem ordId_valid : MapOrdValid ordId := fun l => List.Perm.refl l

theorem ordRev_valid : MapOrdValid ordRev := fun l => l.reverse_perm

theorem ordFix (ord : MapOrd) (hv : MapOrdValid ord) (l : List (String × Json))
    (hl : l.length ≤ 1) : ord l = l := by
  cases l with
  | nil => exact (hv []).eq_nil
  | cons a t =>
    cases t with
    | nil => exact List.perm_singleton.mp (hv [a])
    | cons b t2 => simp at hl

theorem toolCallArgs_congr (ord₁ ord₂ : MapOrd) (h₁ : MapOrdValid ord₁)
    (h₂ : MapOrdValid ord₂) (bm : List (String × Json)) (hb : argsSmall bm = true) :
    toolCallArgs ord₁ bm = toolCallArgs ord₂ bm := by
  unfold argsSmall at hb
  unfold toolCallArgs
  cases ha : objLookup bm "arguments" with
  | none => rfl
  | some j =>
    rw [ha] at hb
    cases j with
    | obj am =>
      have hle : (objEntries am).length ≤ 1 := by
        simpa using hb
      show goJoin ", " ((ord₁ (objEntries am)).map argSummary) =
        goJoin ", " ((ord₂ (objEntries am)).map argSummary)
      rw [ordFix ord₁ h₁ _ hle, ordFix ord₂ h₂ _ hle]
    | null => rfl
    | bool b => rfl
    | num d lit => rfl
    | str s => rfl
    | arr xs => rfl

theorem toolCallLine_congr (ord₁ ord₂ : MapOrd) (h₁ : MapOrdValid ord₁)
    (h₂ : MapOrdValid ord₂) (b : Json) (hb : blockSmallArgs b = true) :
    toolCallLine ord₁ b = toolCallLine ord₂ b := by
  cases b with
  | obj bm =>
    have hb2 : (match objLookup bm "type" with
        | some (.str t) => if t = "toolCall" then argsSmall bm else true
        | _ => true) = true := hb
    show (match objLookup bm "type" with
        | some (.str t) =>
          if t = "toolCall" then
            some ("  " ++ magenta ++ "⚡ " ++ toolCallName bm ++ ansiReset ++ "(" ++ dim ++
              toolCallArgs ord₁ bm ++ ansiReset ++ ")")
          else none
        | _ => none) =
      (match objLookup bm "type" with
        | some (.str t) =>
          if t = "toolCall" then
            some ("  " ++ magenta ++ "⚡ " ++ toolCallName bm ++ ansiReset ++ "(" ++ dim ++
              toolCallArgs ord₂ bm ++ ansiReset ++ ")")
          else none
        | _ => none)
    cases ht : objLookup bm "type" with
    | none => rfl
    | some tv =>
      rw [ht] at hb2
      cases tv with
      | str t =>
        replace hb2 : (if t = "toolCall" then argsSmall bm else true) = true := hb2
        by_cases htc : t = "toolCall"
        · rw [if_pos htc] at hb2
          show (if t = "toolCall" then
              some ("  " ++ magenta ++ "⚡ " ++ toolCallName bm ++ ansiReset ++ "(" ++ dim ++
                toolCallArgs ord₁ bm ++ ansiReset ++ ")")
            else none) =
            (if t = "toolCall" then
              some ("  " ++ magenta ++ "⚡ " ++ toolCallName bm ++ ansiReset ++ "(" ++ dim ++
                toolCallArgs ord₂ bm ++ ansiReset ++ ")")
            else none)
          rw [toolCallArgs_congr ord₁ ord₂ h₁ h₂ bm hb2]
        · show (if t = "toolCall" then
              some ("  " ++ magenta ++ "⚡ " ++ toolCallName bm ++ ansiReset ++ "(" ++ dim ++
                toolCallArgs ord₁ bm ++ ansiReset ++ ")")
            else none) =
            (if t = "toolCall" then
              some ("  " ++ magenta ++ "⚡ " ++ toolCallName bm ++ ansiReset ++ "(" ++ dim ++
                toolCallArgs ord₂ bm ++ ansiReset ++ ")")
            else none)
          rw [if_neg htc, if_neg htc]
      | null => rfl
      | bool bb => rfl
      | num d lit => rfl
      | arr xs => rfl
      | obj fs => rfl
  | null => rfl
  | bool bb => rfl
  | num d lit => rfl
  | str s => rfl
  | arr xs => rfl

theorem extractToolCalls_congr (ord₁ ord₂ : MapOrd) (h₁ : MapOrdValid ord₁)
    (h₂ : MapOrdValid ord₂) (c : Option Json) (hc : contentSmallArgs c = true) :
    extractToolCalls ord₁ c = extractToolCalls ord₂ c := by
  cases c with
  | none => rfl
  | some j =>
    cases j with
    | arr blocks =>
      replace hc : blocks.all blockSmallArgs = true := hc
      show blocks.filterMap (toolCallLine ord₁) = blocks.filterMap (toolCallLine ord₂)
      induction blocks with
      | nil => rfl
      | cons b bs ih =>
        rw [List.all_cons, Bool.and_eq_true] at hc
        rw [List.filterMap_cons, List.filterMap_cons,
          toolCallLine_congr ord₁ ord₂ h₁ h₂ b hc.1, ih hc.2]
    | null => rfl
    | bool bb => rfl
    | num d lit => rfl
    | str s => rfl
    | obj fs => rfl

theorem renderToolCall_congr (ord₁ ord₂ : MapOrd) (h₁ : MapOrdValid ord₁)
    (h₂ : MapOrdValid ord₂) (e : LogEntry)
    (hs : (objEntries (e.toolInput.getD [])).length ≤ 1) :
    renderToolCall ord₁ e = renderToolCall ord₂ e := by
  simp only [renderToolCall]
  rw [ordFix ord₁ h₁ _ hs, ordFix ord₂ h₂ _ hs]

theorem renderAssistant_congr (ts : String) (ord₁ ord₂ : MapOrd) (h₁ : MapOrdValid ord₁)
    (h₂ : MapOrdValid ord₂) (c : Option Json) (u : Option UsageS)
    (hc : contentSmallArgs c = true) :
    renderAssistant ts ord₁ c u = renderAssistant ts ord₂ c u := by
  simp only [renderAssistant]
  rw [extractToolCalls_congr ord₁ ord₂ h₁ h₂ c hc]

theorem normalizeEntry_content_cases (e : LogEntry) :
    (normalizeEntry e).content = e.content ∨ (normalizeEntry e).content = e.message.content := by
  unfold normalizeEntry
  by_cases hf : e.role ≠ "" ∧ e.message.role = ""
  · rw [if_pos hf]
    exact Or.inl rfl
  · rw [if_neg hf]
    exact Or.inr rfl

theorem renderEntry_congr (v : Bool) (tz : Int) (ord₁ ord₂ : MapOrd)
    (h₁ : MapOrdValid ord₁) (h₂ : MapOrdValid ord₂) (e : LogEntry)
    (hs : entrySmallArgs e = true) :
    renderEntry v tz ord₁ e = renderEntry v tz ord₂ e := by
  unfold entrySmallArgs at hs
  rw [decide_eq_true_eq] at hs
  obtain ⟨hs1, hs2, hs3'⟩ := hs
  have hsc : contentSmallArgs (normalizeEntry e).content = true := by
    rcases normalizeEntry_content_cases e with hcc | hcc
    · rw [hcc]; exact hs1
    · rw [hcc]; exact hs2
  by_cases h0 : (normalizeEntry e).role = ""
  · rw [renderEntry_empty v tz ord₁ e h0, renderEntry_empty v tz ord₂ e h0]
  by_cases hr1 : (normalizeEntry e).role = "request"
  · rw [renderEntry_request v tz ord₁ e hr1, renderEntry_request v tz ord₂ e hr1]
  by_cases hr2 : (normalizeEntry e).role = "thinking"
  · rw [renderEntry_thinking v tz ord₁ e hr2, renderEntry_thinking v tz ord₂ e hr2]
  by_cases hr3 : (normalizeEntry e).role = "tool_call"
  · rw [renderEntry_toolCall v tz ord₁ e hr3, renderEntry_toolCall v tz ord₂ e hr3]
    exact renderToolCall_congr ord₁ ord₂ h₁ h₂ e hs3'
  by_cases hr4 : (normalizeEntry e).role = "tool_result"
  · rw [renderEntry_toolResult v tz ord₁ e hr4, renderEntry_toolResult v tz ord₂ e hr4]
  by_cases hr5 : (normalizeEntry e).role = "user"
  · rw [renderEntry_user v tz ord₁ e hr5, renderEntry_user v tz ord₂ e hr5]
  by_cases hr6 : (normalizeEntry e).role = "assistant"
  · rw [renderEntry_assistant v tz ord₁ e hr6, renderEntry_assistant v tz ord₂ e hr6]
    exact renderAssistant_congr _ ord₁ ord₂ h₁ h₂ _ _ hsc
  by_cases hr7 : (normalizeEntry e).role = "tool"
  · rw [renderEntry_tool v tz ord₁ e hr7, renderEntry_tool v tz ord₂ e hr7]
  by_cases hr8 : (normalizeEntry e).role = "system"
  · rw [renderEntry_system v tz ord₁ e hr8, renderEntry_system v tz ord₂ e hr8]
  rw [renderEntry_other v tz ord₁ e hr1 hr2 hr3 hr4 hr5 hr6 hr7 hr8,
    renderEntry_other v tz ord₂ e hr1 hr2 hr3 hr4 hr5 hr6 hr7 hr8]

/-- C3 counterexample: on a tool call with a two-key argument map, two
legitimate map iteration orders (`ordId` and `ordRev`, both permutations by
`ordId_valid` and `ordRev_valid`) produce different outputs, so two
processings of the same line string can differ: the Go runtime randomizes
map range order per statement. -/
theorem C3_counterexample :
    processLine false 0 ordId lineToolCall2 ≠ processLine false 0 ordRev lineToolCall2 := by
  decide

/-- C3 amended: `processLine` is a pure function of the line, the verbosity
flag and the iteration order used for argument maps; for lines whose
argument maps all have at most one key the result does not depend on the
iteration order at all. -/
theorem C3_deterministic_small_args (v : Bool) (tz : Int) (ord₁ ord₂ : MapOrd)
    (line : String) (h₁ : MapOrdValid ord₁) (h₂ : MapOrdValid ord₂)
    (hs : lineSmallArgs line = true) :
    processLine v tz ord₁ line = processLine v tz ord₂ line := by
  unfold processLine
  unfold lineSmallArgs at hs
  cases hd : decodeLine line with
  | none => rfl
  | some e =>
    rw [hd] at hs
    show renderEntry v tz ord₁ e = renderEntry v tz ord₂ e
    exact renderEntry_congr v tz ord₁ ord₂ h₁ h₂ e hs

/-- Witness for C3: on a single-key tool call the identity and reversed
orders agree. -/
theorem C3_witness :
    processLine false 0 ordId lineToolCall1 = processLine false 0 ordRev lineToolCall1 :=
  C3_deterministic_small_args false 0 ordId ordRev lineToolCall1
    (fun l => List.Perm.refl l) (fun l => l.reverse_perm) (by decide)

end SessionStream
